import Mathlib

/-!
Shallow embedding of the FaceOfBattle tick-simulation core
(spatial_hash.hpp, formation_system.cpp, movement_system.cpp,
combat_system.cpp, components.hpp, constants.hpp, and the fixed-step
loop of main.cpp), together with theorems settling the specification
claims about it.

Modelling conventions:
- Scalars are a linear ordered field with a floor (instantiated at the
  rationals for concrete evaluation and at the reals where the real
  square root is needed); C++ float arithmetic is embedded as exact
  field arithmetic.
- Where the C++ code computes a Euclidean distance with std::sqrt and
  then only compares it against a nonnegative threshold, the embedding
  compares the squared distance against the squared threshold, which is
  exactly equivalent over an ordered field because squaring is strictly
  monotone on nonnegatives.  Where the code uses the numeric value of a
  square root (vector normalisation, division by a distance), the
  embedding takes the square-root function as an explicit parameter,
  instantiated with the real square root.
- entt entity handles are natural numbers; the registry is a record of
  per-entity optional components; view iteration is iteration over the
  registry's stable entity list, re-checking component filters at each
  element (entt views filter lazily during iteration).
- The std::mt19937 generator with uniform_real_distribution is embedded
  as a stream of unit-interval draws plus a cursor; a draw from
  uniform_real_distribution(0, c) is c times the next stream value.
-/

namespace FOB

/-- Entity handles (entt entity) as natural numbers. -/
abbrev Entity := Nat

/-- Two-dimensional vector (core/types.hpp Vec2). -/
structure Vec2 (α : Type) where
  x : α
  y : α
deriving DecidableEq

section Constants

variable {α : Type} [LinearOrderedField α]

/-- constants.hpp: FIXED_TIMESTEP = 1/60. -/
def FIXED_TIMESTEP : α := 1 / 60

/-- constants.hpp: MELEE_RANGE = 2.0f. -/
def MELEE_RANGE : α := 2

/-- constants.hpp: FORMATION_SPACING = 2.5f. -/
def FORMATION_SPACING : α := 5 / 2

/-- constants.hpp: MORALE_EFFECT_RADIUS = 20.0f. -/
def MORALE_EFFECT_RADIUS : α := 20

/-- constants.hpp: SPATIAL_HASH_CELL_SIZE = 10.0f. -/
def SPATIAL_HASH_CELL_SIZE : α := 10

/-- constants.hpp: ALLY_SEPARATION_RADIUS = 2.0f. -/
def ALLY_SEPARATION_RADIUS : α := 2

/-- constants.hpp: ALLY_SEPARATION_STRENGTH = 8.0f. -/
def ALLY_SEPARATION_STRENGTH : α := 8

/-- constants.hpp: ENEMY_STOP_RADIUS = 2.5f. -/
def ENEMY_STOP_RADIUS : α := 5 / 2

/-- constants.hpp: ATTACK_RANGE = 3.0f. -/
def ATTACK_RANGE : α := 3

/-- constants.hpp: ATTACK_COOLDOWN = 1.5f. -/
def ATTACK_COOLDOWN : α := 3 / 2

/-- constants.hpp: LIGHT_DAMAGE = 15.0f. -/
def LIGHT_DAMAGE : α := 15

/-- constants.hpp: HEAVY_DAMAGE = 35.0f. -/
def HEAVY_DAMAGE : α := 35

/-- constants.hpp: MISS_CHANCE = 0.3f. -/
def MISS_CHANCE : α := 3 / 10

/-- constants.hpp: HEAVY_HIT_CHANCE = 0.2f. -/
def HEAVY_HIT_CHANCE : α := 1 / 5

/-- constants.hpp: LIGHT_INFANTRY_SPEED = 8.0f. -/
def LIGHT_INFANTRY_SPEED : α := 8

/-- constants.hpp: HEAVY_INFANTRY_SPEED = 5.0f. -/
def HEAVY_INFANTRY_SPEED : α := 5

/-- constants.hpp: CAVALRY_SPEED = 15.0f. -/
def CAVALRY_SPEED : α := 15

end Constants

section SpatialHashDefs

variable {α : Type} [LinearOrderedField α] [FloorRing α]

/-- Squared Euclidean distance between two points.  The C++ helper
distance(x1,y1,x2,y2) returns the square root of this; every use of
that helper in the embedded code either compares the distance against
a nonnegative threshold (encoded here on squares) or feeds it to the
explicit square-root parameter. -/
def distSq (x1 y1 x2 y2 : α) : α := (x2 - x1) ^ 2 + (y2 - y1) ^ 2

/-- Cell coordinates of a point: floor(x/cellSize), floor(y/cellSize)
(spatial_hash.hpp cellKey; multiplication by the precomputed inverse
cell size is exact division in the field). -/
def cellOf (cellSize x y : α) : Int × Int := (⌊x / cellSize⌋, ⌊y / cellSize⌋)

/-- The spatial hash state.  The C++ class stores an unordered map from
packed cell keys to per-cell vectors in insertion order; the embedding
keeps the raw insertion sequence, from which each cell bucket is the
subsequence of insertions falling in that cell, in insertion order,
exactly as push_back builds it. -/
structure SpatialHash (α : Type) where
  cellSize : α
  items : List (Entity × α × α)

/-- SpatialHash::clear - empties all cell contents. -/
def SpatialHash.clear (h : SpatialHash α) : SpatialHash α :=
  { h with items := [] }

/-- SpatialHash::insert - appends the entity to the bucket of the cell
containing (x, y). -/
def SpatialHash.insert (h : SpatialHash α) (e : Entity) (x y : α) : SpatialHash α :=
  { h with items := h.items ++ [(e, x, y)] }

/-- The list of integers from lo to hi inclusive (empty when hi < lo),
the iteration space of a C++ for loop from lo to hi. -/
def intRange (lo hi : Int) : List Int :=
  (List.range (hi + 1 - lo).toNat).map (fun (i : Nat) => lo + (i : Int))

/-- The bucket of one cell: all insertions whose position hashes to
that cell, in insertion order. -/
def SpatialHash.bucket (h : SpatialHash α) (c : Int × Int) : List Entity :=
  (h.items.filter (fun it => cellOf h.cellSize it.2.1 it.2.2 = c)).map (fun it => it.1)

/-- SpatialHash::queryRadius - concatenates the buckets of every cell
intersecting the axis-aligned box [x-r, x+r] x [y-r, y+r], iterating
cell rows in the outer loop exactly as the C++ nested loops do. -/
def SpatialHash.queryRadius (h : SpatialHash α) (x y radius : α) : List Entity :=
  let minCellX := ⌊(x - radius) / h.cellSize⌋
  let maxCellX := ⌊(x + radius) / h.cellSize⌋
  let minCellY := ⌊(y - radius) / h.cellSize⌋
  let maxCellY := ⌊(y + radius) / h.cellSize⌋
  (intRange minCellY maxCellY).foldr
    (fun cy acc =>
      ((intRange minCellX maxCellX).foldr
        (fun cx acc2 => h.bucket (cx, cy) ++ acc2) []) ++ acc) []

end SpatialHashDefs

section Components

variable {α : Type} [LinearOrderedField α]

/-- components.hpp Team::Value. -/
inductive TeamV where
  | Red
  | Blue
deriving DecidableEq

/-- components.hpp Stats. -/
structure Stats (α : Type) where
  health : α
  maxHealth : α
  stamina : α
  maxStamina : α
  attackPower : α
  defense : α
  speed : α
deriving DecidableEq

/-- components.hpp UnitType::Type. -/
inductive UnitTypeT where
  | LightInfantry
  | HeavyInfantry
  | Cavalry
deriving DecidableEq

/-- components.hpp FormationState. -/
inductive FormationState where
  | Advancing
  | Engaged
  | Withdrawing
  | Broken
deriving DecidableEq

/-- components.hpp Formation (the component on a formation entity). -/
structure Formation (α : Type) where
  targetPosition : Vec2 α
  facing : Vec2 α
  state : FormationState
  speed : α
  frontRank : Int
deriving DecidableEq

/-- components.hpp FormationMember. -/
structure FormationMember (α : Type) where
  formation : Entity
  localOffset : Vec2 α
  rank : Int
  file : Int
deriving DecidableEq

/-- components.hpp InCombat. -/
structure InCombat (α : Type) where
  opponent : Entity
  combatTimer : α
deriving DecidableEq

/-- components.hpp MovementTarget. -/
structure MovementTarget (α : Type) where
  position : Vec2 α
  hasTarget : Bool
deriving DecidableEq

/-- components.hpp Pursuing. -/
structure Pursuing where
  target : Entity
deriving DecidableEq

/-- Modelled from the spec: the FlashEffect component's struct
definition is not among the source files (only its uses in
combat_system.cpp and main.cpp are); per the spec it holds a type
(attack / hit / none) and a countdown timer. -/
inductive FlashType where
  | None
  | Attack
  | Hit
deriving DecidableEq

/-- Modelled from the spec: FlashEffect state, a type tag plus a
countdown timer; the one-argument constructor used by
combat_system.cpp sets the type and starts the countdown at a fixed
duration, carried below as the parameter fd. -/
structure FlashEffect (α : Type) where
  type : FlashType
  timer : α
deriving DecidableEq

/-- The entity-component store (the entt registry restricted to the
components the simulation core uses).  The entities field is the
stable iteration order of the store; each component is a sparse
per-entity attachment. -/
structure Registry (α : Type) where
  entities : List Entity
  pos : Entity → Option (Vec2 α)
  vel : Entity → Option (Vec2 α)
  team : Entity → Option TeamV
  stats : Entity → Option (Stats α)
  unit : Entity → Option UnitTypeT
  formation : Entity → Option (Formation α)
  member : Entity → Option (FormationMember α)
  mtarget : Entity → Option (MovementTarget α)
  inCombat : Entity → Option (InCombat α)
  routing : Entity → Bool
  dead : Entity → Bool
  pursuing : Entity → Option Pursuing
  flash : Entity → Option (FlashEffect α)

/-- Pointwise update of a per-entity component table. -/
def upd {β : Type} (f : Entity → β) (e : Entity) (v : β) : Entity → β :=
  fun x => if x = e then v else f x

/-- registry.valid(e): the handle refers to a live slot of the store. -/
def Registry.valid (r : Registry α) (e : Entity) : Bool :=
  r.entities.contains e

/-- Health of an entity, read through its Stats component (0 when the
component is absent); the projection the health claims speak about. -/
def Registry.healthD (r : Registry α) (e : Entity) : α :=
  match r.stats e with
  | some s => s.health
  | none => 0

/-- The fixed-step loop of main.cpp rebuilds the spatial hash each tick
from the view of Position excluding Dead and Formation: clear, then
insert every alive non-formation entity at its current position, in
registry iteration order. -/
def buildSpatialHash (r : Registry α) [FloorRing α] (cellSize : α) : SpatialHash α :=
  { cellSize := cellSize
    items := r.entities.filterMap (fun e =>
      if r.dead e then none
      else if (r.formation e).isSome then none
      else match r.pos e with
        | some p => some (e, p.x, p.y)
        | none => none) }

/-- The random generator: a stream of draws in the unit interval plus a
cursor (std::mt19937 fed through uniform_real_distribution). -/
structure Rng (α : Type) where
  draws : Nat → α
  idx : Nat

/-- Consume one unit-interval draw. -/
def Rng.next (g : Rng α) : α × Rng α :=
  (g.draws g.idx, { g with idx := g.idx + 1 })

end Components

section CombatDefs

variable {α : Type} [LinearOrderedField α] [FloorRing α]

/-- The body of CombatSystem::findTarget's scan loop for one buffer
entry: skip the attacker itself, invalid handles, Dead entities,
same-team or team-less entities and entities without Stats; otherwise
keep the entry when it is within ATTACK_RANGE and strictly closer than
the best so far. -/
def findTargetStep (r : Registry α) (attacker : Entity) (apos : Vec2 α) (ateam : TeamV)
    (best : Option Entity × α) (other : Entity) : Option Entity × α :=
  if other = attacker then best
  else if !(r.valid other) then best
  else if r.dead other then best
  else
    match r.team other with
    | none => best
    | some oteam =>
      if oteam = ateam then best
      else if (r.stats other).isNone then best
      else
        let opos := (r.pos other).getD ⟨0, 0⟩
        let dsq := distSq apos.x apos.y opos.x opos.y
        if dsq ≤ ATTACK_RANGE ^ 2 ∧ dsq < best.2 then (some other, dsq)
        else best

/-- CombatSystem::findTarget - query ATTACK_RANGE around the attacker,
scan the buffer keeping the closest entity that is not the attacker,
valid, not Dead, on the opposing team and has Stats; best distance
starts at ATTACK_RANGE + 1.  The C++ comparisons dist less-equal
ATTACK_RANGE and dist less-than bestDist are encoded on squared
distances, which is equivalent since all the compared values are
nonnegative. -/
def findTarget (r : Registry α) (h : SpatialHash α) (attacker : Entity) : Option Entity :=
  let apos := (r.pos attacker).getD ⟨0, 0⟩
  let ateam := (r.team attacker).getD TeamV.Red
  let nearby := h.queryRadius apos.x apos.y ATTACK_RANGE
  (nearby.foldl (findTargetStep r attacker apos ateam)
    (none, (ATTACK_RANGE + 1) ^ 2)).1

/-- CombatSystem::checkDeath - if the entity has Stats and its health
is at most 0: clamp health to 0, attach Dead (idempotently) and remove
InCombat, Routing and Pursuing. -/
def checkDeath (r : Registry α) (e : Entity) : Registry α :=
  match r.stats e with
  | none => r
  | some s =>
    if s.health ≤ 0 then
      { r with
        stats := upd r.stats e (some { s with health := 0 })
        dead := upd r.dead e true
        inCombat := upd r.inCombat e none
        routing := upd r.routing e false
        pursuing := upd r.pursuing e none }
    else r

/-- CombatSystem::performAttack - skip invalid, Dead or Stats-less
targets; flash the attacker; roll for miss, then (only on a non-miss)
roll for heavy versus light damage; apply the defense-reduced damage
floored at 1 to the target's health, flash the target and check death.
The parameter fd is the countdown the FlashEffect constructor starts
with (its struct definition is not in the sources). -/
def performAttack (fd : α) (r : Registry α) (g : Rng α) (attacker target : Entity) :
    Registry α × Rng α :=
  if !(r.valid target) then (r, g)
  else if r.dead target then (r, g)
  else
    match r.stats target with
    | none => (r, g)
    | some tstats =>
      let r1 := { r with flash := upd r.flash attacker (some ⟨FlashType.Attack, fd⟩) }
      let (hitRoll, g1) := g.next
      if hitRoll < MISS_CHANCE then (r1, g1)
      else
        let (damageRoll, g2) := g1.next
        let damage : α := if damageRoll < HEAVY_HIT_CHANCE then HEAVY_DAMAGE else LIGHT_DAMAGE
        let actualDamage := max 1 (damage - tstats.defense * (1 / 2))
        let r2 := { r1 with
          stats := upd r1.stats target (some { tstats with health := tstats.health - actualDamage }) }
        let r3 := { r2 with flash := upd r2.flash target (some ⟨FlashType.Hit, fd⟩) }
        (checkDeath r3 target, g2)

/-- One iteration of CombatSystem::update's combatant loop for one
entity: advance the cooldown timer if InCombat, find a target, then
either engage (with a randomized initial cooldown drawn from
uniform(0, ATTACK_COOLDOWN)) or re-target, attack when the timer has
reached ATTACK_COOLDOWN (resetting the timer to the negation of a
fresh uniform(0, ATTACK_COOLDOWN) draw), or disengage when no target
is in range.  The returned Boolean records whether performAttack was
invoked. -/
def processCombatant (fd : α) (h : SpatialHash α) (dt : α) (rg : Registry α × Rng α)
    (e : Entity) : Registry α × Rng α × Bool :=
  let r := rg.1
  let g := rg.2
  let r :=
    match r.inCombat e with
    | some ic =>
      { r with inCombat := upd r.inCombat e (some { ic with combatTimer := ic.combatTimer + dt }) }
    | none => r
  match findTarget r h e with
  | some target =>
    let step :
        Registry α × Rng α × InCombat α :=
      match r.inCombat e with
      | none =>
        let (u, g1) := g.next
        let ic : InCombat α := { opponent := target, combatTimer := ATTACK_COOLDOWN * u }
        ({ r with inCombat := upd r.inCombat e (some ic) }, g1, ic)
      | some ic0 =>
        let ic := { ic0 with opponent := target }
        ({ r with inCombat := upd r.inCombat e (some ic) }, g, ic)
    let r1 := step.1
    let g1 := step.2.1
    let ic := step.2.2
    if ATTACK_COOLDOWN ≤ ic.combatTimer then
      let ar := performAttack fd r1 g1 e target
      let (u, g2) := ar.2.next
      ({ ar.1 with
          inCombat := upd ar.1.inCombat e
            (some { ic with combatTimer := -(ATTACK_COOLDOWN * u) }) },
        g2, true)
    else (r1, g1, false)
  | none =>
    match r.inCombat e with
    | some _ => ({ r with inCombat := upd r.inCombat e none }, g, false)
    | none => (r, g, false)

/-- The component filter of CombatSystem::update's combatant view:
Position, Team and Stats present, Dead and Routing absent. -/
def combatantFilter (r : Registry α) (e : Entity) : Bool :=
  (r.pos e).isSome && (r.team e).isSome && (r.stats e).isSome
    && !(r.dead e) && !(r.routing e)

/-- One iteration of CombatSystem::update's flash-decay loop for one
entity: while the timer is positive, count it down and clear the type
once it expires. -/
def decayFlash (dt : α) (r : Registry α) (e : Entity) : Registry α :=
  match r.flash e with
  | none => r
  | some f =>
    if 0 < f.timer then
      let t := f.timer - dt
      if t ≤ 0 then { r with flash := upd r.flash e (some ⟨FlashType.None, t⟩) }
      else { r with flash := upd r.flash e (some ⟨f.type, t⟩) }
    else r

/-- CombatSystem::update - decay flash effects, then run the combatant
loop over the registry, re-checking the view filter at each entity
against the current state (entt views filter lazily, so an entity
killed earlier in the same pass is skipped when reached). -/
def combatUpdate (fd : α) (h : SpatialHash α) (dt : α) (r : Registry α) (g : Rng α) :
    Registry α × Rng α :=
  let r := r.entities.foldl (decayFlash dt) r
  r.entities.foldl
    (fun (rg : Registry α × Rng α) e =>
      if combatantFilter rg.1 e then
        let out := processCombatant fd h dt rg e
        (out.1, out.2.1)
      else rg)
    (r, g)

end CombatDefs

section FormationDefs

variable {α : Type} [LinearOrderedField α] [FloorRing α]

/-- The anonymous-namespace normalize helper of formation_system.cpp
and movement_system.cpp: return the zero vector when the length is
below 0.0001, else divide by the length.  The square root is the
explicit parameter sqrt. -/
def normalize (sqrt : α → α) (v : Vec2 α) : Vec2 α :=
  let len := sqrt (v.x ^ 2 + v.y ^ 2)
  if len < 1 / 10000 then ⟨0, 0⟩ else ⟨v.x / len, v.y / len⟩

/-- The component filter of FormationSystem::checkEnemyContact's member
view: Position, FormationMember and Team present, Dead and Routing
absent. -/
def memberFilter (r : Registry α) (e : Entity) : Bool :=
  (r.pos e).isSome && (r.member e).isSome && (r.team e).isSome
    && !(r.dead e) && !(r.routing e)

/-- The inner loop of FormationSystem::checkEnemyContact for one
front-line soldier: query ENEMY_STOP_RADIUS around the soldier and
report whether any returned entity is not the soldier itself, valid,
not Dead and carries a Team different from the formation's team.
Note that the code does not compare exact distances here: any entity
of the queried cells passes. -/
def enemyNear (r : Registry α) (h : SpatialHash α) (soldier : Entity)
    (formationTeam : TeamV) : Bool :=
  let spos := (r.pos soldier).getD ⟨0, 0⟩
  (h.queryRadius spos.x spos.y ENEMY_STOP_RADIUS).any (fun other =>
    decide (other ≠ soldier) && r.valid other && !(r.dead other)
      && (match r.team other with
          | none => false
          | some t => decide (t ≠ formationTeam)))

/-- The body of checkEnemyContact's member loop for one entity of the
view.  The fold state is (contact found, team already fixed, formation
team); once contact is found the remaining iterations are skipped,
mirroring the early return. -/
def contactStep (r : Registry α) (h : SpatialHash α) (f : Entity) (fm : Formation α)
    (st : Bool × Bool × TeamV) (e : Entity) : Bool × Bool × TeamV :=
  if st.1 then st
  else if memberFilter r e then
    match r.member e with
    | none => st
    | some m =>
      if m.formation ≠ f then st
      else
        let fteam := if st.2.1 then st.2.2 else (r.team e).getD TeamV.Red
        if m.rank ≠ fm.frontRank then (false, true, fteam)
        else (enemyNear r h e fteam, true, fteam)
  else st

/-- FormationSystem::checkEnemyContact - walk the member view; the
first member of this formation fixes the formation's team (default
Red); every member whose rank equals the formation's frontRank runs
the enemy scan; the walk short-circuits on the first contact. -/
def checkEnemyContact (r : Registry α) (h : SpatialHash α) (f : Entity) : Bool :=
  match r.formation f with
  | none => false
  | some fm =>
    (r.entities.foldl (contactStep r h f fm) (false, false, TeamV.Red)).1

/-- One iteration of FormationSystem::update for one formation entity:
in Advancing, first test enemy contact (switching to Engaged and doing
nothing else on contact), otherwise advance the formation's own
position toward targetPosition while farther than 1 unit from it;
Engaged, Withdrawing and Broken do nothing.  The comparison dist
greater-than 1 is encoded on squares. -/
def formationStep (sqrt : α → α) (h : SpatialHash α) (dt : α) (r : Registry α)
    (f : Entity) : Registry α :=
  match r.pos f, r.formation f with
  | some pos, some fm =>
    match fm.state with
    | FormationState.Advancing =>
      if checkEnemyContact r h f then
        { r with formation := upd r.formation f (some { fm with state := FormationState.Engaged }) }
      else
        if 1 < distSq pos.x pos.y fm.targetPosition.x fm.targetPosition.y then
          let dir := normalize sqrt ⟨fm.targetPosition.x - pos.x, fm.targetPosition.y - pos.y⟩
          let pos2 : Vec2 α := ⟨pos.x + dir.x * fm.speed * dt, pos.y + dir.y * fm.speed * dt⟩
          { r with pos := upd r.pos f (some pos2) }
        else r
    | _ => r
  | _, _ => r

/-- FormationSystem::update - iterate the view of Position and
Formation, running the state machine step for each formation entity. -/
def formationUpdate (sqrt : α → α) (h : SpatialHash α) (dt : α) (r : Registry α) :
    Registry α :=
  r.entities.foldl
    (fun r f =>
      if (r.pos f).isSome && (r.formation f).isSome then formationStep sqrt h dt r f
      else r)
    r

end FormationDefs

section MovementDefs

variable {α : Type} [LinearOrderedField α] [FloorRing α]

/-- The anonymous-namespace getBaseSpeed helper of movement_system.cpp. -/
def getBaseSpeed (t : UnitTypeT) : α :=
  match t with
  | UnitTypeT.LightInfantry => LIGHT_INFANTRY_SPEED
  | UnitTypeT.Cavalry => CAVALRY_SPEED
  | UnitTypeT.HeavyInfantry => HEAVY_INFANTRY_SPEED

/-- The anonymous-namespace clampMagnitude helper of
movement_system.cpp: leave the vector alone when its length is at most
maxLen or degenerate, else rescale it to maxLen. -/
def clampMagnitude (sqrt : α → α) (v : Vec2 α) (maxLen : α) : Vec2 α :=
  let len := sqrt (v.x ^ 2 + v.y ^ 2)
  if len ≤ maxLen ∨ len < 1 / 10000 then v
  else ⟨v.x * (maxLen / len), v.y * (maxLen / len)⟩

/-- The nearby-unit force loop shared verbatim by
MovementSystem::moveFormationMember and MovementSystem::moveFreeUnit:
accumulate the enemy-repulsion vector, the ally-separation vector and
the enemy-contact flag over the queried buffer. -/
def accumForces (sqrt : α → α) (r : Registry α) (e : Entity) (pos : Vec2 α)
    (team : TeamV) (nearby : List Entity) : Vec2 α × Vec2 α × Bool :=
  nearby.foldl
    (fun (acc : Vec2 α × Vec2 α × Bool) other =>
      if other = e then acc
      else if !(r.valid other) then acc
      else if r.dead other then acc
      else
        match r.team other with
        | none => acc
        | some oteam =>
          let opos := (r.pos other).getD ⟨0, 0⟩
          let dist := sqrt (distSq pos.x pos.y opos.x opos.y)
          if dist < 1 / 100 then acc
          else
            let away : Vec2 α := ⟨(pos.x - opos.x) / dist, (pos.y - opos.y) / dist⟩
            if oteam ≠ team then
              if dist < ENEMY_STOP_RADIUS then
                let strength := (ENEMY_STOP_RADIUS - dist) / ENEMY_STOP_RADIUS
                (⟨acc.1.x + away.x * strength * 2, acc.1.y + away.y * strength * 2⟩,
                  acc.2.1, true)
              else acc
            else
              if dist < ALLY_SEPARATION_RADIUS then
                let strength := (ALLY_SEPARATION_RADIUS - dist) / ALLY_SEPARATION_RADIUS
                (acc.1,
                  ⟨acc.2.1.x + away.x * strength, acc.2.1.y + away.y * strength⟩,
                  acc.2.2)
              else acc)
    (⟨0, 0⟩, ⟨0, 0⟩, false)

/-- Write the computed movement vector: velocity becomes the clamped
vector and the position is integrated by dt (the shared tail of all
three movement modes). -/
def applyMovement (sqrt : α → α) (r : Registry α) (e : Entity) (pos : Vec2 α)
    (movement : Vec2 α) (speed dt : α) : Registry α :=
  let mv := clampMagnitude sqrt movement speed
  let pos2 : Vec2 α := ⟨pos.x + mv.x * dt, pos.y + mv.y * dt⟩
  { r with vel := upd r.vel e (some mv), pos := upd r.pos e (some pos2) }

/-- MovementSystem::moveFormationMember - seek the world-space slot
(local offset with its Y mirrored by the formation's facing) while
Advancing without enemy contact; in Engaged or on contact run the
gap-fill check (advance at half speed when no living ally is within
0.7 x FORMATION_SPACING of the point one FORMATION_SPACING ahead along
facing) and drift gently toward the slot when holding; then add the
normalized enemy-repulsion and ally-separation forces and clamp to the
unit's speed.  The gap-fill distance test is already a squared
comparison in the C++ source. -/
def moveFormationMember (sqrt : α → α) (h : SpatialHash α) (r : Registry α)
    (e : Entity) (fm : Formation α) (fpos : Vec2 α) (speed dt : α) : Registry α :=
  let pos := (r.pos e).getD ⟨0, 0⟩
  let member := (r.member e).getD ⟨0, ⟨0, 0⟩, 0, 0⟩
  let team := (r.team e).getD TeamV.Red
  let targetWorld : Vec2 α :=
    ⟨fpos.x + member.localOffset.x, fpos.y + member.localOffset.y * fm.facing.y⟩
  let qradius := max ENEMY_STOP_RADIUS ALLY_SEPARATION_RADIUS
  let nearby := h.queryRadius pos.x pos.y (α := α) qradius
  let forces := accumForces sqrt r e pos team nearby
  let enemyRepulsion := forces.1
  let allyRepulsion := forces.2.1
  let enemyContact := forces.2.2
  let movement : Vec2 α :=
    if fm.state = FormationState.Advancing ∧ enemyContact = false then
      let distToTarget := sqrt (distSq pos.x pos.y targetWorld.x targetWorld.y)
      if 1 / 2 < distToTarget then
        let toTarget := normalize sqrt ⟨targetWorld.x - pos.x, targetWorld.y - pos.y⟩
        let urgency := min (distToTarget / FORMATION_SPACING) 1
        ⟨toTarget.x * speed * urgency, toTarget.y * speed * urgency⟩
      else ⟨0, 0⟩
    else if fm.state = FormationState.Engaged ∨ enemyContact = true then
      let frontCheckPos : Vec2 α := ⟨pos.x, pos.y + fm.facing.y * FORMATION_SPACING⟩
      let nearby2 := h.queryRadius frontCheckPos.x frontCheckPos.y
        (FORMATION_SPACING * (3 / 2))
      let allyInFront := nearby2.any (fun other =>
        decide (other ≠ e) && r.valid other && !(r.dead other)
          && (match r.team other with
              | none => false
              | some oteam =>
                oteam = team
                  && (let opos := (r.pos other).getD ⟨0, 0⟩
                      decide (distSq frontCheckPos.x frontCheckPos.y opos.x opos.y
                        < (FORMATION_SPACING * (7 / 10)) ^ 2))))
      let base : Vec2 α :=
        if allyInFront = false then
          ⟨fm.facing.x * speed * (1 / 2), fm.facing.y * speed * (1 / 2)⟩
        else ⟨0, 0⟩
      if enemyContact = true ∨ allyInFront = true then
        let distToTarget := sqrt (distSq pos.x pos.y targetWorld.x targetWorld.y)
        if FORMATION_SPACING * (1 / 2) < distToTarget then
          let toTarget := normalize sqrt ⟨targetWorld.x - pos.x, targetWorld.y - pos.y⟩
          ⟨base.x + toTarget.x * speed * (3 / 10), base.y + toTarget.y * speed * (3 / 10)⟩
        else base
      else base
    else ⟨0, 0⟩
  let eRep := normalize sqrt enemyRepulsion
  let m1 : Vec2 α := ⟨movement.x + eRep.x * speed * (3 / 2), movement.y + eRep.y * speed * (3 / 2)⟩
  let aRep := normalize sqrt allyRepulsion
  let m2 : Vec2 α :=
    ⟨m1.x + aRep.x * ALLY_SEPARATION_STRENGTH, m1.y + aRep.y * ALLY_SEPARATION_STRENGTH⟩
  applyMovement sqrt r e pos m2 speed dt

/-- MovementSystem::moveFreeUnit - same force model as formation
members, with base steering toward the MovementTarget at full speed
while no enemy is in range and the target is farther than MELEE_RANGE. -/
def moveFreeUnit (sqrt : α → α) (h : SpatialHash α) (r : Registry α)
    (e : Entity) (speed dt : α) : Registry α :=
  let pos := (r.pos e).getD ⟨0, 0⟩
  let target := (r.mtarget e).getD ⟨⟨0, 0⟩, false⟩
  let team := (r.team e).getD TeamV.Red
  let qradius := max ENEMY_STOP_RADIUS ALLY_SEPARATION_RADIUS
  let nearby := h.queryRadius pos.x pos.y (α := α) qradius
  let forces := accumForces sqrt r e pos team nearby
  let enemyRepulsion := forces.1
  let allyRepulsion := forces.2.1
  let enemyInRange := forces.2.2
  let movement : Vec2 α :=
    if enemyInRange = false then
      let distToTarget := sqrt (distSq pos.x pos.y target.position.x target.position.y)
      if MELEE_RANGE < distToTarget then
        let toTarget := normalize sqrt ⟨target.position.x - pos.x, target.position.y - pos.y⟩
        ⟨toTarget.x * speed, toTarget.y * speed⟩
      else ⟨0, 0⟩
    else ⟨0, 0⟩
  let eRep := normalize sqrt enemyRepulsion
  let m1 : Vec2 α := ⟨movement.x + eRep.x * speed * (3 / 2), movement.y + eRep.y * speed * (3 / 2)⟩
  let aRep := normalize sqrt allyRepulsion
  let m2 : Vec2 α :=
    ⟨m1.x + aRep.x * ALLY_SEPARATION_STRENGTH, m1.y + aRep.y * ALLY_SEPARATION_STRENGTH⟩
  applyMovement sqrt r e pos m2 speed dt

/-- MovementSystem::fleeFromEnemies - accumulate an inverse-distance
weighted repulsion from every alive enemy within MORALE_EFFECT_RADIUS,
falling back to the team's fixed retreat direction when none is found;
the normalized direction at flee speed is the whole velocity. -/
def fleeFromEnemies (sqrt : α → α) (h : SpatialHash α) (r : Registry α)
    (e : Entity) (speed dt : α) : Registry α :=
  let pos := (r.pos e).getD ⟨0, 0⟩
  let team := (r.team e).getD TeamV.Red
  let nearby := h.queryRadius pos.x pos.y (α := α) MORALE_EFFECT_RADIUS
  let acc :=
    nearby.foldl
      (fun (acc : Vec2 α × Nat) other =>
        if other = e then acc
        else if !(r.valid other) then acc
        else if r.dead other then acc
        else
          match r.team other with
          | none => acc
          | some oteam =>
            if oteam = team then acc
            else
              let opos := (r.pos other).getD ⟨0, 0⟩
              let dist := sqrt (distSq pos.x pos.y opos.x opos.y)
              if dist < 1 / 10 then acc
              else
                let weight := 1 / dist
                (⟨acc.1.x + (pos.x - opos.x) * weight, acc.1.y + (pos.y - opos.y) * weight⟩,
                  acc.2 + 1))
      (⟨0, 0⟩, 0)
  let fleeDir : Vec2 α :=
    if acc.2 = 0 then (if team = TeamV.Red then ⟨0, -1⟩ else ⟨0, 1⟩) else acc.1
  let dir := normalize sqrt fleeDir
  let vel2 : Vec2 α := ⟨dir.x * speed, dir.y * speed⟩
  let pos2 : Vec2 α := ⟨pos.x + vel2.x * dt, pos.y + vel2.y * dt⟩
  { r with vel := upd r.vel e (some vel2), pos := upd r.pos e (some pos2) }

/-- MovementSystem::update - three passes over the registry in order:
routing units (Position, Velocity, UnitType, Routing; not Dead or
InCombat) flee at 1.5 x base speed; formation members (Position,
Velocity, FormationMember, Team, UnitType; not Dead, InCombat or
Routing) with a valid formation entity carrying Formation and Position
move via moveFormationMember; free units (Position, Velocity,
MovementTarget, Team, UnitType; not Dead, InCombat, Routing or
FormationMember) with the target flag set move via moveFreeUnit.
Filters are re-checked against the current state at each entity. -/
def movementUpdate (sqrt : α → α) (h : SpatialHash α) (dt : α) (r : Registry α) :
    Registry α :=
  let r := r.entities.foldl
    (fun r e =>
      if (r.pos e).isSome && (r.vel e).isSome && (r.unit e).isSome && r.routing e
          && !(r.dead e) && (r.inCombat e).isNone then
        fleeFromEnemies sqrt h r e (getBaseSpeed ((r.unit e).getD UnitTypeT.HeavyInfantry) * (3 / 2)) dt
      else r)
    r
  let r := r.entities.foldl
    (fun r e =>
      if (r.pos e).isSome && (r.vel e).isSome && (r.member e).isSome && (r.team e).isSome
          && (r.unit e).isSome && !(r.dead e) && (r.inCombat e).isNone && !(r.routing e) then
        match r.member e with
        | none => r
        | some m =>
          if !(r.valid m.formation) then r
          else
            match r.formation m.formation, r.pos m.formation with
            | some fm, some fpos =>
              moveFormationMember sqrt h r e fm fpos
                (getBaseSpeed ((r.unit e).getD UnitTypeT.HeavyInfantry)) dt
            | _, _ => r
      else r)
    r
  r.entities.foldl
    (fun r e =>
      if (r.pos e).isSome && (r.vel e).isSome && (r.mtarget e).isSome && (r.team e).isSome
          && (r.unit e).isSome && !(r.dead e) && (r.inCombat e).isNone && !(r.routing e)
          && (r.member e).isNone then
        match r.mtarget e with
        | none => r
        | some t =>
          if t.hasTarget then
            moveFreeUnit sqrt h r e (getBaseSpeed ((r.unit e).getD UnitTypeT.HeavyInfantry)) dt
          else r
      else r)
    r

end MovementDefs

section TickDefs

variable {α : Type} [LinearOrderedField α] [FloorRing α]

/-- One fixed-timestep simulation step of main.cpp's loop body: rebuild
the spatial hash over alive non-formation positions, then run the
Formation, Movement and Combat systems in order. -/
def tick (sqrt : α → α) (fd : α) (dt : α) (rg : Registry α × Rng α) :
    Registry α × Rng α :=
  let h := buildSpatialHash rg.1 (SPATIAL_HASH_CELL_SIZE : α)
  let r := formationUpdate sqrt h dt rg.1
  let r := movementUpdate sqrt h dt r
  combatUpdate fd h dt r rg.2

/-- Iterating the tick n times from a given registry and generator
state. -/
def run (sqrt : α → α) (fd : α) (dt : α) (n : Nat) (rg : Registry α × Rng α) :
    Registry α × Rng α :=
  (tick sqrt fd dt)^[n] rg

end TickDefs

section SpatialHashLemmas

variable {α : Type} [LinearOrderedField α] [FloorRing α]

/-- Membership in an integer interval list. -/
lemma mem_intRange {a lo hi : Int} : a ∈ intRange lo hi ↔ lo ≤ a ∧ a ≤ hi := by
  constructor
  · intro hmem
    obtain ⟨i, hir, hEq⟩ := List.mem_map.mp hmem
    rw [List.mem_range] at hir
    omega
  · rintro ⟨h1, h2⟩
    refine List.mem_map.mpr ⟨(a - lo).toNat, ?_, ?_⟩
    · rw [List.mem_range]
      omega
    · omega

/-- Membership in a fold of appended blocks. -/
lemma mem_foldr_append {β γ : Type} [DecidableEq γ] (f : β → List γ) (l : List β) (x : γ) :
    x ∈ l.foldr (fun c acc => f c ++ acc) [] ↔ ∃ c ∈ l, x ∈ f c := by
  induction l with
  | nil => simp
  | cons b t ih => simp [List.foldr, ih]

/-- Membership in a cell bucket. -/
lemma mem_bucket {h : SpatialHash α} {c : Int × Int} {e : Entity} :
    e ∈ h.bucket c ↔ ∃ px py, (e, px, py) ∈ h.items ∧ cellOf h.cellSize px py = c := by
  simp only [SpatialHash.bucket, List.mem_map, List.mem_filter]
  constructor
  · rintro ⟨⟨e', px, py⟩, ⟨hmem, hc⟩, rfl⟩
    exact ⟨px, py, hmem, by simpa using hc⟩
  · rintro ⟨px, py, hmem, hc⟩
    exact ⟨(e, px, py), ⟨hmem, by simpa using hc⟩, rfl⟩

/-- Characterisation of queryRadius membership: the entity occurs among
the insertions, in a cell within the queried cell box. -/
lemma mem_queryRadius_iff {h : SpatialHash α} {x y radius : α} {e : Entity} :
    e ∈ h.queryRadius x y radius ↔
      ∃ px py, (e, px, py) ∈ h.items ∧
        ⌊(x - radius) / h.cellSize⌋ ≤ ⌊px / h.cellSize⌋ ∧
        ⌊px / h.cellSize⌋ ≤ ⌊(x + radius) / h.cellSize⌋ ∧
        ⌊(y - radius) / h.cellSize⌋ ≤ ⌊py / h.cellSize⌋ ∧
        ⌊py / h.cellSize⌋ ≤ ⌊(y + radius) / h.cellSize⌋ := by
  unfold SpatialHash.queryRadius
  rw [mem_foldr_append]
  constructor
  · rintro ⟨cy, hcy, hx⟩
    rw [mem_foldr_append] at hx
    obtain ⟨cx, hcx, hb⟩ := hx
    obtain ⟨px, py, hmem, hcell⟩ := mem_bucket.mp hb
    rw [mem_intRange] at hcy hcx
    unfold cellOf at hcell
    refine ⟨px, py, hmem, ?_, ?_, ?_, ?_⟩ <;>
      simp only [Prod.mk.injEq] at hcell <;> omega
  · rintro ⟨px, py, hmem, h1, h2, h3, h4⟩
    refine ⟨⌊py / h.cellSize⌋, mem_intRange.mpr ⟨h3, h4⟩, ?_⟩
    rw [mem_foldr_append]
    refine ⟨⌊px / h.cellSize⌋, mem_intRange.mpr ⟨h1, h2⟩, ?_⟩
    exact mem_bucket.mpr ⟨px, py, hmem, rfl⟩

/-- Inserted entities within the radius are always returned (the
no-false-negative half of the spatial index contract). -/
lemma queryRadius_complete {h : SpatialHash α} {x y radius px py : α} {e : Entity}
    (hc : 0 < h.cellSize) (hr : 0 ≤ radius)
    (hmem : (e, px, py) ∈ h.items)
    (hdist : distSq x y px py ≤ radius ^ 2) :
    e ∈ h.queryRadius x y radius := by
  have hx2 : (px - x) ^ 2 ≤ radius ^ 2 := by
    have := sq_nonneg (py - y)
    simp only [distSq] at hdist
    nlinarith
  have hy2 : (py - y) ^ 2 ≤ radius ^ 2 := by
    have := sq_nonneg (px - x)
    simp only [distSq] at hdist
    nlinarith
  obtain ⟨hxl, hxu⟩ := abs_le_of_sq_le_sq' hx2 hr
  obtain ⟨hyl, hyu⟩ := abs_le_of_sq_le_sq' hy2 hr
  refine mem_queryRadius_iff.mpr ⟨px, py, hmem, ?_, ?_, ?_, ?_⟩ <;>
    exact Int.floor_le_floor ((div_le_div_iff_of_pos_right hc).mpr (by linarith))

/-- Entities returned by queryRadius were inserted at a position within
one cell size beyond the query box on each axis (the bounded
false-positive half of the contract, with the correct bound). -/
lemma queryRadius_sound_box {h : SpatialHash α} {x y radius : α} {e : Entity}
    (hc : 0 < h.cellSize)
    (hq : e ∈ h.queryRadius x y radius) :
    ∃ px py, (e, px, py) ∈ h.items ∧
      |px - x| < radius + h.cellSize ∧ |py - y| < radius + h.cellSize := by
  obtain ⟨px, py, hmem, h1, h2, h3, h4⟩ := mem_queryRadius_iff.mp hq
  have lower : ∀ q lo : α, ⌊lo / h.cellSize⌋ ≤ ⌊q / h.cellSize⌋ → lo - h.cellSize < q := by
    intro q lo hle
    have hcast : ((⌊lo / h.cellSize⌋ : α)) ≤ ((⌊q / h.cellSize⌋ : α)) := by exact_mod_cast hle
    have hlt : lo / h.cellSize < q / h.cellSize + 1 :=
      lt_of_lt_of_le (Int.lt_floor_add_one (lo / h.cellSize))
        (by linarith [le_trans hcast (Int.floor_le (q / h.cellSize))])
    have hmul := (div_lt_iff₀ hc).mp hlt
    rw [add_mul, one_mul, div_mul_cancel₀ _ (ne_of_gt hc)] at hmul
    linarith
  have upper : ∀ q hi2 : α, ⌊q / h.cellSize⌋ ≤ ⌊hi2 / h.cellSize⌋ → q < hi2 + h.cellSize := by
    intro q hi2 hle
    have hcast : ((⌊q / h.cellSize⌋ : α)) ≤ ((⌊hi2 / h.cellSize⌋ : α)) := by exact_mod_cast hle
    have hlt : q / h.cellSize < hi2 / h.cellSize + 1 :=
      lt_of_lt_of_le (Int.lt_floor_add_one (q / h.cellSize))
        (by linarith [le_trans hcast (Int.floor_le (hi2 / h.cellSize))])
    have hmul := (div_lt_iff₀ hc).mp hlt
    rw [add_mul, one_mul, div_mul_cancel₀ _ (ne_of_gt hc)] at hmul
    linarith
  refine ⟨px, py, hmem, ?_, ?_⟩
  · rw [abs_lt]
    exact ⟨by linarith [lower px (x - radius) h1], by linarith [upper px (x + radius) h2]⟩
  · rw [abs_lt]
    exact ⟨by linarith [lower py (y - radius) h3], by linarith [upper py (y + radius) h4]⟩

end SpatialHashLemmas

section ClaimC1

/-- Claim C1 (corrected): for every set of entities inserted into the
spatial index and every query point and nonnegative radius, queryRadius
returns every inserted entity whose position lies within Euclidean
distance r of the query point (no false negatives; stated on squared
distances), and every returned entity was inserted at a position within
r plus one cell SIZE of the query point on each axis (hence within
Euclidean distance sqrt 2 times (r + cellSize)).  The originally claimed
bound of r plus one cell diagonal is refuted by claim_C1_counterexample. -/
theorem claim_C1_spatial_query_amended {α : Type} [LinearOrderedField α] [FloorRing α]
    (h : SpatialHash α) (x y radius : α)
    (hc : 0 < h.cellSize) (hr : 0 ≤ radius) :
    (∀ e px py, (e, px, py) ∈ h.items → distSq x y px py ≤ radius ^ 2 →
      e ∈ h.queryRadius x y radius) ∧
    (∀ e, e ∈ h.queryRadius x y radius →
      ∃ px py, (e, px, py) ∈ h.items ∧
        |px - x| < radius + h.cellSize ∧ |py - y| < radius + h.cellSize) :=
  ⟨fun _ _ _ hmem hdist => queryRadius_complete hc hr hmem hdist,
   fun _ hq => queryRadius_sound_box hc hq⟩

/-- Witness for claim_C1_spatial_query_amended at a concrete rational
instance. -/
theorem claim_C1_witness :
    (0 : ℚ) < (⟨10, [(7, 3, 4)]⟩ : SpatialHash ℚ).cellSize ∧ (0 : ℚ) ≤ 5 ∧
    ((∀ e px py, (e, px, py) ∈ (⟨10, [(7, 3, 4)]⟩ : SpatialHash ℚ).items →
        distSq 0 0 px py ≤ (5 : ℚ) ^ 2 →
        e ∈ (⟨10, [(7, 3, 4)]⟩ : SpatialHash ℚ).queryRadius 0 0 5) ∧
     (∀ e, e ∈ (⟨10, [(7, 3, 4)]⟩ : SpatialHash ℚ).queryRadius 0 0 5 →
        ∃ px py, (e, px, py) ∈ (⟨10, [(7, 3, 4)]⟩ : SpatialHash ℚ).items ∧
          |px - 0| < 5 + (⟨10, [(7, 3, 4)]⟩ : SpatialHash ℚ).cellSize ∧
          |py - 0| < 5 + (⟨10, [(7, 3, 4)]⟩ : SpatialHash ℚ).cellSize)) :=
  ⟨by norm_num, by norm_num,
   claim_C1_spatial_query_amended (⟨10, [(7, 3, 4)]⟩ : SpatialHash ℚ) 0 0 5
     (by norm_num) (by norm_num)⟩

/-- Counterexample to claim C1 as stated: with the default cell size 10,
an entity inserted at (19.9, 19.9) is returned by queryRadius(0, 0, 10)
even though its Euclidean distance from the query point exceeds the
radius plus one cell diagonal (10 plus 10 times sqrt 2). -/
theorem claim_C1_counterexample :
    0 ∈ ((SpatialHash.clear ⟨10, []⟩).insert 0 (199/10) (199/10) :
        SpatialHash ℝ).queryRadius 0 0 10 ∧
    (10 : ℝ) + Real.sqrt 2 * 10 < Real.sqrt (distSq 0 0 (199/10) (199/10)) := by
  constructor
  · norm_num [SpatialHash.queryRadius, SpatialHash.insert, SpatialHash.clear, SpatialHash.bucket,
      cellOf, intRange, List.range_succ, List.foldr, List.filter, List.filterMap,
      Prod.mk.injEq, Int.floor_eq_iff, List.mem_append]
  · have h2 : Real.sqrt 2 < 1.415 := by
      rw [Real.sqrt_lt' (by norm_num)]
      norm_num
    rw [Real.lt_sqrt (by positivity)]
    have hsq : Real.sqrt 2 ^ 2 = 2 := Real.sq_sqrt (by norm_num)
    simp only [distSq]
    nlinarith [Real.sqrt_nonneg (2:ℝ), hsq, h2]

end ClaimC1

section FindTargetLemmas

variable {α : Type} [LinearOrderedField α] [FloorRing α]

/-- The filter a buffer entry must pass to be a target candidate in
CombatSystem::findTarget: not the attacker, valid, alive, on the
opposing team and carrying Stats. -/
def targetCandidate (r : Registry α) (attacker : Entity) (ateam : TeamV) (c : Entity) : Prop :=
  c ≠ attacker ∧ r.valid c = true ∧ r.dead c = false ∧
    (∃ ct, r.team c = some ct ∧ ct ≠ ateam) ∧ (r.stats c).isSome = true

/-- Squared distance from the attacker's position to a candidate's
position as findTarget reads it. -/
def candDistSq (r : Registry α) (apos : Vec2 α) (c : Entity) : α :=
  distSq apos.x apos.y ((r.pos c).getD ⟨0, 0⟩).x ((r.pos c).getD ⟨0, 0⟩).y

lemma findTargetStep_characterization (r : Registry α) (attacker : Entity) (apos : Vec2 α)
    (ateam : TeamV) (st : Option Entity × α) (other : Entity) :
    (targetCandidate r attacker ateam other ∧
      candDistSq r apos other ≤ ATTACK_RANGE ^ 2 ∧ candDistSq r apos other < st.2 ∧
      findTargetStep r attacker apos ateam st other = (some other, candDistSq r apos other)) ∨
    (findTargetStep r attacker apos ateam st other = st ∧
      (targetCandidate r attacker ateam other →
        ¬(candDistSq r apos other ≤ ATTACK_RANGE ^ 2 ∧ candDistSq r apos other < st.2))) := by
  unfold findTargetStep
  by_cases h1 : other = attacker
  · right
    simp only [h1, if_pos rfl]
    exact ⟨rfl, fun hc => absurd rfl hc.1⟩
  · rw [if_neg h1]
    by_cases h2 : r.valid other = true
    · rw [h2]
      simp only [Bool.not_true, Bool.false_eq_true, if_false]
      by_cases h3 : r.dead other = true
      · right
        rw [if_pos h3]
        exact ⟨rfl, fun hc => absurd h3 (by simp [hc.2.2.1])⟩
      · rw [if_neg h3]
        rcases hteam : r.team other with _ | t
        · right
          exact ⟨rfl, fun hc => by
            obtain ⟨ct, hct, _⟩ := hc.2.2.2.1
            rw [hteam] at hct
            exact absurd hct (by simp)⟩
        · dsimp only
          by_cases h4 : t = ateam
          · right
            rw [if_pos h4]
            refine ⟨rfl, fun hc => ?_⟩
            obtain ⟨ct, hct, hne⟩ := hc.2.2.2.1
            rw [hteam] at hct
            obtain rfl := Option.some_injective _ hct
            exact absurd h4 hne
          · rw [if_neg h4]
            by_cases h5 : (r.stats other).isNone = true
            · right
              rw [if_pos h5]
              exact ⟨rfl, fun hc => by
                have := hc.2.2.2.2
                simp [Option.isNone_iff_eq_none.mp h5] at this⟩
            · rw [if_neg h5]
              by_cases h6 : candDistSq r apos other ≤ ATTACK_RANGE ^ 2 ∧
                  candDistSq r apos other < st.2
              · left
                refine ⟨⟨h1, h2, by simpa using h3, ⟨t, hteam, h4⟩, ?_⟩, h6.1, h6.2, ?_⟩
                · simpa [Option.isNone_iff_eq_none, ← Option.ne_none_iff_isSome] using h5
                · simp only [candDistSq] at h6 ⊢
                  rw [if_pos h6]
              · right
                simp only [candDistSq] at h6 ⊢
                rw [if_neg h6]
                exact ⟨rfl, fun _ => h6⟩
    · right
      have : (!(r.valid other)) = true := by simp [Bool.eq_false_iff.mpr h2]
      rw [if_pos this]
      exact ⟨rfl, fun hc => absurd hc.2.1 h2⟩

/-- Invariant of the findTarget fold state. -/
def ftInv (r : Registry α) (attacker : Entity) (apos : Vec2 α) (ateam : TeamV)
    (st : Option Entity × α) : Prop :=
  (st.1 = none → st.2 = (ATTACK_RANGE + 1) ^ 2) ∧
  (∀ t, st.1 = some t → targetCandidate r attacker ateam t ∧
    candDistSq r apos t = st.2 ∧ st.2 ≤ ATTACK_RANGE ^ 2)

lemma findTarget_fold_with_mem (r : Registry α) (attacker : Entity) (apos : Vec2 α)
    (ateam : TeamV) (l : List Entity) (st : Option Entity × α)
    (hinv : ftInv r attacker apos ateam st) :
    ftInv r attacker apos ateam (l.foldl (findTargetStep r attacker apos ateam) st) ∧
    (l.foldl (findTargetStep r attacker apos ateam) st).2 ≤ st.2 ∧
    (∀ c ∈ l, targetCandidate r attacker ateam c →
      candDistSq r apos c ≤ ATTACK_RANGE ^ 2 →
      (l.foldl (findTargetStep r attacker apos ateam) st).2 ≤ candDistSq r apos c) ∧
    (∀ t, (l.foldl (findTargetStep r attacker apos ateam) st).1 = some t →
      st.1 = some t ∨ t ∈ l) := by
  induction l generalizing st with
  | nil => exact ⟨hinv, le_refl _, by simp, fun t ht => Or.inl ht⟩
  | cons b t ih =>
    rcases findTargetStep_characterization r attacker apos ateam st b with
      ⟨hcand, hle, hlt, heq⟩ | ⟨heq, hrej⟩
    · have hinv' : ftInv r attacker apos ateam (findTargetStep r attacker apos ateam st b) := by
        rw [heq]
        exact ⟨by simp, fun t' ht' => by
          simp only [Option.some_inj] at ht'
          exact ⟨ht' ▸ hcand, ht' ▸ rfl, ht' ▸ hle⟩⟩
      obtain ⟨ih1, ih2, ih3, ih4⟩ := ih (findTargetStep r attacker apos ateam st b) hinv'
      simp only [List.foldl_cons]
      refine ⟨ih1, le_trans ih2 (by rw [heq]; exact le_of_lt hlt), ?_, ?_⟩
      · intro c hc hcand' hle'
        rcases List.mem_cons.mp hc with rfl | hmem
        · exact le_trans ih2 (by rw [heq])
        · exact ih3 c hmem hcand' hle'
      · intro t' ht'
        rcases ih4 t' ht' with hst | hmem
        · rw [heq] at hst
          simp only [Option.some_inj] at hst
          exact Or.inr (hst ▸ List.mem_cons_self b t)
        · exact Or.inr (List.mem_cons_of_mem b hmem)
    · obtain ⟨ih1, ih2, ih3, ih4⟩ := ih (findTargetStep r attacker apos ateam st b)
        (by rw [heq]; exact hinv)
      simp only [List.foldl_cons]
      refine ⟨ih1, le_trans ih2 (le_of_eq (by rw [heq])), ?_, ?_⟩
      · intro c hc hcand' hle'
        rcases List.mem_cons.mp hc with rfl | hmem
        · rcases lt_or_le (candDistSq r apos c) st.2 with hlt2 | hge
          · exact absurd ⟨hle', hlt2⟩ (hrej hcand')
          · exact le_trans (le_trans ih2 (le_of_eq (by rw [heq]))) hge
        · exact ih3 c hmem hcand' hle'
      · intro t' ht'
        rcases ih4 t' ht' with hst | hmem
        · rw [heq] at hst
          exact Or.inl hst
        · exact Or.inr (List.mem_cons_of_mem b hmem)

end FindTargetLemmas

section ClaimC9

variable {α : Type} [LinearOrderedField α] [FloorRing α]

/-- Claim C9 (corrected): findTarget returns, among the entities of the
spatial query buffer that pass the candidate filter (alive, opposing
team, with Stats), one at minimal exact distance from the attacker,
accepted when its distance is at most ATTACK_RANGE (non-strict, unlike
the claim's strictly-within); it returns none exactly when no candidate
is within (non-strict) ATTACK_RANGE.  Distances are compared as
squares. -/
theorem claim_C9_findTarget_amended (r : Registry α) (h : SpatialHash α) (a : Entity) :
    (∀ t, findTarget r h a = some t →
      t ∈ h.queryRadius ((r.pos a).getD ⟨0, 0⟩).x ((r.pos a).getD ⟨0, 0⟩).y ATTACK_RANGE ∧
      targetCandidate r a ((r.team a).getD TeamV.Red) t ∧
      candDistSq r ((r.pos a).getD ⟨0, 0⟩) t ≤ ATTACK_RANGE ^ 2 ∧
      (∀ c ∈ h.queryRadius ((r.pos a).getD ⟨0, 0⟩).x ((r.pos a).getD ⟨0, 0⟩).y ATTACK_RANGE,
        targetCandidate r a ((r.team a).getD TeamV.Red) c →
        candDistSq r ((r.pos a).getD ⟨0, 0⟩) t ≤ candDistSq r ((r.pos a).getD ⟨0, 0⟩) c)) ∧
    (findTarget r h a = none →
      ∀ c ∈ h.queryRadius ((r.pos a).getD ⟨0, 0⟩).x ((r.pos a).getD ⟨0, 0⟩).y ATTACK_RANGE,
        targetCandidate r a ((r.team a).getD TeamV.Red) c →
        ATTACK_RANGE ^ 2 < candDistSq r ((r.pos a).getD ⟨0, 0⟩) c) := by
  have h9 : ((3 : α) ^ 2) < (3 + 1) ^ 2 := by norm_num
  obtain ⟨hinv, hdec, hmin, hsome⟩ :=
    findTarget_fold_with_mem r a ((r.pos a).getD ⟨0, 0⟩) ((r.team a).getD TeamV.Red)
      (h.queryRadius ((r.pos a).getD ⟨0, 0⟩).x ((r.pos a).getD ⟨0, 0⟩).y ATTACK_RANGE)
      (none, (ATTACK_RANGE + 1) ^ 2) ⟨fun _ => rfl, by simp⟩
  constructor
  · intro t ht
    have ht' :
        ((h.queryRadius ((r.pos a).getD ⟨0, 0⟩).x ((r.pos a).getD ⟨0, 0⟩).y
          ATTACK_RANGE).foldl
            (findTargetStep r a ((r.pos a).getD ⟨0, 0⟩) ((r.team a).getD TeamV.Red))
            (none, (ATTACK_RANGE + 1) ^ 2)).1 = some t := ht
    obtain ⟨hcand, hdist, hle⟩ := hinv.2 t ht'
    refine ⟨?_, hcand, hdist ▸ hle, ?_⟩
    · rcases hsome t ht' with hcontra | hmem
      · exact absurd hcontra (by simp)
      · exact hmem
    · intro c hc hcandc
      rcases le_or_lt (candDistSq r ((r.pos a).getD ⟨0, 0⟩) c) (ATTACK_RANGE ^ 2) with hin | hout
      · exact hdist ▸ hmin c hc hcandc hin
      · exact le_trans (hdist ▸ hle) (le_of_lt hout)
  · intro hnone c hc hcandc
    have hnone' :
        ((h.queryRadius ((r.pos a).getD ⟨0, 0⟩).x ((r.pos a).getD ⟨0, 0⟩).y
          ATTACK_RANGE).foldl
            (findTargetStep r a ((r.pos a).getD ⟨0, 0⟩) ((r.team a).getD TeamV.Red))
            (none, (ATTACK_RANGE + 1) ^ 2)).1 = none := hnone
    by_contra hle
    push_neg at hle
    have := hmin c hc hcandc hle
    rw [hinv.1 hnone'] at this
    have h916 : ((ATTACK_RANGE : α) + 1) ^ 2 ≤ ATTACK_RANGE ^ 2 := le_trans this hle
    rw [ATTACK_RANGE] at h916
    norm_num at h916

/-- A concrete two-soldier registry: attacker 0 of team Red at the
origin, enemy 1 of team Blue at (3, 0), exactly ATTACK_RANGE away. -/
def regC9 : Registry ℚ where
  entities := [0, 1]
  pos := fun e => if e = 0 then some ⟨0, 0⟩ else if e = 1 then some ⟨3, 0⟩ else none
  vel := fun _ => some ⟨0, 0⟩
  team := fun e => if e = 0 then some TeamV.Red else if e = 1 then some TeamV.Blue else none
  stats := fun e =>
    if e = 0 then some ⟨100, 100, 100, 100, 10, 0, 5⟩
    else if e = 1 then some ⟨100, 100, 100, 100, 10, 0, 5⟩ else none
  unit := fun _ => some UnitTypeT.HeavyInfantry
  formation := fun _ => none
  member := fun _ => none
  mtarget := fun _ => none
  inCombat := fun _ => none
  routing := fun _ => false
  dead := fun _ => false
  pursuing := fun _ => none
  flash := fun _ => none

def hashC9 : SpatialHash ℚ := buildSpatialHash regC9 10

/-- Counterexample to claim C9 as stated: the enemy at exact distance
ATTACK_RANGE (not strictly within it) is still returned by findTarget,
because the code compares with less-or-equal. -/
theorem claim_C9_counterexample :
    findTarget regC9 hashC9 0 = some 1 ∧
    candDistSq regC9 ⟨0, 0⟩ 1 = (ATTACK_RANGE : ℚ) ^ 2 := by
  constructor
  · norm_num [findTarget, findTargetStep, regC9, hashC9, buildSpatialHash,
      SpatialHash.queryRadius, SpatialHash.bucket, cellOf, intRange, Registry.valid,
      distSq, ATTACK_RANGE, List.foldl, List.range_succ, List.foldr, List.filter,
      List.filterMap, Prod.mk.injEq, Prod.ext_iff]
    simp
  · norm_num [candDistSq, regC9, distSq, ATTACK_RANGE]

/-- Witness for claim_C9_findTarget_amended: at the concrete two-soldier
state the returned target 1 is a candidate at minimal distance within
ATTACK_RANGE. -/
theorem claim_C9_witness :
    1 ∈ hashC9.queryRadius ((regC9.pos 0).getD ⟨0, 0⟩).x ((regC9.pos 0).getD ⟨0, 0⟩).y
      ATTACK_RANGE ∧
    targetCandidate regC9 0 ((regC9.team 0).getD TeamV.Red) 1 ∧
    candDistSq regC9 ((regC9.pos 0).getD ⟨0, 0⟩) 1 ≤ ATTACK_RANGE ^ 2 ∧
    (∀ c ∈ hashC9.queryRadius ((regC9.pos 0).getD ⟨0, 0⟩).x ((regC9.pos 0).getD ⟨0, 0⟩).y
        ATTACK_RANGE,
      targetCandidate regC9 0 ((regC9.team 0).getD TeamV.Red) c →
      candDistSq regC9 ((regC9.pos 0).getD ⟨0, 0⟩) 1 ≤
        candDistSq regC9 ((regC9.pos 0).getD ⟨0, 0⟩) c) :=
  (claim_C9_findTarget_amended regC9 hashC9 0).1 1
    (by
      norm_num [findTarget, findTargetStep, regC9, hashC9, buildSpatialHash,
        SpatialHash.queryRadius, SpatialHash.bucket, cellOf, intRange, Registry.valid,
        distSq, ATTACK_RANGE, List.foldl, List.range_succ, List.foldr, List.filter,
        List.filterMap, Prod.mk.injEq, Prod.ext_iff]
      simp)

end ClaimC9

section ContactLemmas

variable {α : Type} [LinearOrderedField α] [FloorRing α]

/-- Soundness of the per-soldier enemy scan: a reported enemy was
inserted into the hash, is not the soldier, is valid, alive and on a
team different from the formation team, and its inserted position lies
within the expanded query box around the soldier (the scan does not
re-check exact distances). -/
lemma enemyNear_sound {r : Registry α} {h : SpatialHash α} {s : Entity} {T : TeamV}
    (hc : 0 < h.cellSize) (hn : enemyNear r h s T = true) :
    ∃ E px py, (E, px, py) ∈ h.items ∧ E ≠ s ∧ r.valid E = true ∧ r.dead E = false ∧
      (∃ tE, r.team E = some tE ∧ tE ≠ T) ∧
      |px - ((r.pos s).getD ⟨0, 0⟩).x| < ENEMY_STOP_RADIUS + h.cellSize ∧
      |py - ((r.pos s).getD ⟨0, 0⟩).y| < ENEMY_STOP_RADIUS + h.cellSize := by
  unfold enemyNear at hn
  obtain ⟨other, hmem, hpred⟩ := List.any_eq_true.mp hn
  simp only [Bool.and_eq_true, decide_eq_true_eq] at hpred
  obtain ⟨⟨⟨hne, hvalid⟩, hdead⟩, hteam⟩ := hpred
  rcases hteamv : r.team other with _ | t
  · rw [hteamv] at hteam
    exact absurd hteam (by simp)
  · rw [hteamv] at hteam
    simp only [decide_eq_true_eq] at hteam
    obtain ⟨px, py, hitems, hbx, hby⟩ := queryRadius_sound_box hc hmem
    exact ⟨other, px, py, hitems, hne, hvalid, by simpa using hdead,
      ⟨t, hteamv, hteam⟩, hbx, hby⟩

/-- Completeness of the per-soldier enemy scan: an alive opposing-team
entity inserted within exact distance ENEMY_STOP_RADIUS of the soldier
is always reported. -/
lemma enemyNear_complete {r : Registry α} {h : SpatialHash α} {s E : Entity}
    {T tE : TeamV} {px py : α}
    (hc : 0 < h.cellSize) (hitems : (E, px, py) ∈ h.items) (hne : E ≠ s)
    (hvalid : r.valid E = true) (hdead : r.dead E = false)
    (hteamE : r.team E = some tE) (htne : tE ≠ T)
    (hdist : distSq ((r.pos s).getD ⟨0, 0⟩).x ((r.pos s).getD ⟨0, 0⟩).y px py ≤
      ENEMY_STOP_RADIUS ^ 2) :
    enemyNear r h s T = true := by
  unfold enemyNear
  refine List.any_eq_true.mpr ⟨E, ?_, ?_⟩
  · exact queryRadius_complete hc (by norm_num [ENEMY_STOP_RADIUS]) hitems hdist
  · simp [hne, hvalid, hdead, hteamE, htne]

/-- Evidence that the contact walk reports: some front-rank member of
the formation whose enemy scan fired. -/
def contactEvidence (r : Registry α) (h : SpatialHash α) (f : Entity) (fm : Formation α)
    (T : TeamV) : Prop :=
  ∃ M m, M ∈ r.entities ∧ memberFilter r M = true ∧ r.member M = some m ∧
    m.formation = f ∧ m.rank = fm.frontRank ∧ enemyNear r h M T = true

/-- A fold over contactStep never clears an already-found contact. -/
lemma contact_fold_keeps_true {r : Registry α} {h : SpatialHash α} {f : Entity}
    {fm : Formation α} (l : List Entity) (st : Bool × Bool × TeamV) (hst : st.1 = true) :
    (l.foldl (contactStep r h f fm) st).1 = true := by
  induction l generalizing st with
  | nil => exact hst
  | cons b t ih =>
    simp only [List.foldl_cons]
    have : contactStep r h f fm st b = st := by
      unfold contactStep
      rw [if_pos hst]
    rw [this]
    exact ih st hst

/-- When every member of the formation carries team T, the contact walk
only reports on evidence: a front-rank member whose scan against T
fired; and the tracked team is always T once fixed. -/
lemma contact_fold_sound {r : Registry α} {h : SpatialHash α} {f : Entity}
    {fm : Formation α} {T : TeamV} (l : List Entity) (st : Bool × Bool × TeamV)
    (hsub : ∀ x ∈ l, x ∈ r.entities)
    (hteamAll : ∀ e ∈ r.entities, memberFilter r e = true →
      ∀ m, r.member e = some m → m.formation = f → r.team e = some T)
    (hstInv : (st.1 = true → contactEvidence r h f fm T) ∧ (st.2.1 = true → st.2.2 = T)) :
    ((l.foldl (contactStep r h f fm) st).1 = true → contactEvidence r h f fm T) ∧
    ((l.foldl (contactStep r h f fm) st).2.1 = true →
      (l.foldl (contactStep r h f fm) st).2.2 = T) := by
  induction l generalizing st with
  | nil => exact hstInv
  | cons b t ih =>
    simp only [List.foldl_cons]
    refine ih (contactStep r h f fm st b) (fun x hx => hsub x (List.mem_cons_of_mem b hx)) ?_
    have hbent : b ∈ r.entities := hsub b (List.mem_cons_self b t)
    unfold contactStep
    by_cases h1 : st.1 = true
    · rw [if_pos h1]
      exact hstInv
    · rw [if_neg h1]
      by_cases h2 : memberFilter r b = true
      · rw [if_pos h2]
        rcases hmb : r.member b with _ | m
        · exact hstInv
        · dsimp only
          have hTb : r.team b = some T → ((if st.2.1 then st.2.2 else
              (r.team b).getD TeamV.Red) = T) ∨ True := fun _ => Or.inr trivial
          by_cases h3 : m.formation ≠ f
          · rw [if_pos h3]
            exact hstInv
          · rw [if_neg h3]
            push_neg at h3
            have hteamb : r.team b = some T := hteamAll b hbent h2 m hmb h3
            have hfteam : (if st.2.1 = true then st.2.2 else (r.team b).getD TeamV.Red) = T := by
              by_cases h4 : st.2.1 = true
              · rw [if_pos h4]
                exact hstInv.2 h4
              · rw [if_neg h4, hteamb]
                rfl
            by_cases h5 : m.rank ≠ fm.frontRank
            · rw [if_pos h5]
              exact ⟨fun hcontra => absurd hcontra (by simp), fun _ => hfteam⟩
            · rw [if_neg h5]
              push_neg at h5
              refine ⟨fun hfire => ?_, fun _ => hfteam⟩
              simp only at hfire
              exact ⟨b, m, hbent, h2, hmb, h3, h5, hfteam ▸ hfire⟩
      · rw [if_neg h2]
        exact hstInv

/-- When every member of the formation carries team T and some
front-rank member's scan against T fires, the contact walk reports
contact. -/
lemma contact_fold_complete {r : Registry α} {h : SpatialHash α} {f : Entity}
    {fm : Formation α} {T : TeamV} {M : Entity} {m : FormationMember α}
    (l : List Entity) (st : Bool × Bool × TeamV)
    (hsub : ∀ x ∈ l, x ∈ r.entities)
    (hteamAll : ∀ e ∈ r.entities, memberFilter r e = true →
      ∀ m', r.member e = some m' → m'.formation = f → r.team e = some T)
    (hstInv : st.2.1 = true → st.2.2 = T)
    (hM : M ∈ l) (hfM : memberFilter r M = true) (hmM : r.member M = some m)
    (hmf : m.formation = f) (hrank : m.rank = fm.frontRank)
    (hnear : enemyNear r h M T = true) :
    (l.foldl (contactStep r h f fm) st).1 = true := by
  induction l generalizing st with
  | nil => exact absurd hM (List.not_mem_nil M)
  | cons b t ih =>
    simp only [List.foldl_cons]
    have hbent : b ∈ r.entities := hsub b (List.mem_cons_self b t)
    by_cases h1 : st.1 = true
    · exact contact_fold_keeps_true _ _ (by
        unfold contactStep
        rw [if_pos h1]
        exact h1)
    · rcases List.mem_cons.mp hM with rfl | hMt
      · have hstep : (contactStep r h f fm st M).1 = true := by
          unfold contactStep
          rw [if_neg h1, if_pos hfM, hmM]
          dsimp only
          rw [if_neg (by simpa using hmf)]
          have hteamb : r.team M = some T := hteamAll M hbent hfM m hmM hmf
          have hfteam : (if st.2.1 = true then st.2.2 else (r.team M).getD TeamV.Red) = T := by
            by_cases h4 : st.2.1 = true
            · rw [if_pos h4]
              exact hstInv h4
            · rw [if_neg h4, hteamb]
              rfl
          rw [if_neg (by simpa using hrank)]
          simpa [hfteam] using hnear
        exact contact_fold_keeps_true _ _ hstep
      · have hinv' : (contactStep r h f fm st b).2.1 = true →
            (contactStep r h f fm st b).2.2 = T := by
          unfold contactStep
          rw [if_neg h1]
          by_cases h2 : memberFilter r b = true
          · rw [if_pos h2]
            rcases hmb : r.member b with _ | m'
            · exact hstInv
            · dsimp only
              by_cases h3 : m'.formation ≠ f
              · rw [if_pos h3]
                exact hstInv
              · rw [if_neg h3]
                push_neg at h3
                have hteamb : r.team b = some T := hteamAll b hbent h2 m' hmb h3
                have hfteam : (if st.2.1 = true then st.2.2 else
                    (r.team b).getD TeamV.Red) = T := by
                  by_cases h4 : st.2.1 = true
                  · rw [if_pos h4]
                    exact hstInv h4
                  · rw [if_neg h4, hteamb]
                    rfl
                by_cases h5 : m'.rank ≠ fm.frontRank
                · rw [if_pos h5]
                  exact fun _ => hfteam
                · rw [if_neg h5]
                  exact fun _ => hfteam
          · rw [if_neg h2]
            exact hstInv
        exact ih (contactStep r h f fm st b)
          (fun x hx => hsub x (List.mem_cons_of_mem b hx)) hinv' hMt

end ContactLemmas

section ClaimC7

/-- Claim C7 (corrected): the Formation System's enemy-contact test does
NOT re-filter queryRadius results by exact distance.  What holds is:
when every member of the formation carries team T, a reported contact
comes from some alive, non-routing front-rank member M of the formation
and some entity E inserted into the hash that is not M, valid, alive,
on a team different from T, and whose inserted position lies within
ENEMY_STOP_RADIUS plus one cell size of M's position on each axis - E
may be farther than ENEMY_STOP_RADIUS (claim_C7_counterexample). -/
theorem claim_C7_contact_amended {α : Type} [LinearOrderedField α] [FloorRing α]
    (r : Registry α) (h : SpatialHash α) (f : Entity) (T : TeamV)
    (hc : 0 < h.cellSize)
    (hteamAll : ∀ e ∈ r.entities, memberFilter r e = true →
      ∀ m, r.member e = some m → m.formation = f → r.team e = some T) :
    checkEnemyContact r h f = true →
    ∃ fm, r.formation f = some fm ∧
      ∃ M m, M ∈ r.entities ∧ memberFilter r M = true ∧ r.member M = some m ∧
        m.formation = f ∧ m.rank = fm.frontRank ∧
        ∃ E px py, (E, px, py) ∈ h.items ∧ E ≠ M ∧ r.valid E = true ∧
          r.dead E = false ∧ (∃ tE, r.team E = some tE ∧ tE ≠ T) ∧
          |px - ((r.pos M).getD ⟨0, 0⟩).x| < ENEMY_STOP_RADIUS + h.cellSize ∧
          |py - ((r.pos M).getD ⟨0, 0⟩).y| < ENEMY_STOP_RADIUS + h.cellSize := by
  intro hcontact
  unfold checkEnemyContact at hcontact
  rcases hfm : r.formation f with _ | fm
  · rw [hfm] at hcontact
    exact absurd hcontact (by simp)
  · rw [hfm] at hcontact
    have hev := (contact_fold_sound r.entities (false, false, TeamV.Red)
      (fun x hx => hx) hteamAll
      ⟨fun hcontra => absurd hcontra (by simp), fun hcontra => absurd hcontra (by simp)⟩).1
      hcontact
    obtain ⟨M, m, hMent, hfM, hmM, hmf, hrank, hnear⟩ := hev
    obtain ⟨E, px, py, hitems, hne, hvalid, hdead, hteamE, hbx, hby⟩ :=
      enemyNear_sound hc hnear
    exact ⟨fm, rfl, M, m, hMent, hfM, hmM, hmf, hrank, E, px, py, hitems, hne, hvalid,
      hdead, hteamE, hbx, hby⟩

/-- A concrete contact scenario: formation entity 0 at the origin with
one Red front-rank member 1 at (5, 5); a Blue soldier 2 at (9.9, 9.9),
well outside ENEMY_STOP_RADIUS of the member but inside the same
10-unit hash cell. -/
def regC7 : Registry ℚ where
  entities := [0, 1, 2]
  pos := fun e =>
    if e = 0 then some ⟨0, 0⟩
    else if e = 1 then some ⟨5, 5⟩
    else if e = 2 then some ⟨99/10, 99/10⟩ else none
  vel := fun _ => some ⟨0, 0⟩
  team := fun e => if e = 1 then some TeamV.Red else if e = 2 then some TeamV.Blue else none
  stats := fun _ => none
  unit := fun _ => some UnitTypeT.HeavyInfantry
  formation := fun e =>
    if e = 0 then some ⟨⟨0, 100⟩, ⟨0, 1⟩, FormationState.Advancing, 5, 0⟩ else none
  member := fun e => if e = 1 then some ⟨0, ⟨0, 0⟩, 0, 0⟩ else none
  mtarget := fun _ => none
  inCombat := fun _ => none
  routing := fun _ => false
  dead := fun _ => false
  pursuing := fun _ => none
  flash := fun _ => none

def hashC7 : SpatialHash ℚ := buildSpatialHash regC7 10

/-- Counterexample to claim C7 as stated: contact is reported although
the only opposing-team soldier is at squared distance 48.02 from the
front-rank member, far beyond ENEMY_STOP_RADIUS squared (6.25) - the
contact test accepts any entity of the queried cells without an exact
distance re-check. -/
theorem claim_C7_counterexample :
    checkEnemyContact regC7 hashC7 0 = true ∧
    (ENEMY_STOP_RADIUS : ℚ) ^ 2 < distSq 5 5 (99/10) (99/10) := by
  constructor
  · norm_num [checkEnemyContact, contactStep, enemyNear, memberFilter, regC7, hashC7,
      buildSpatialHash, SpatialHash.queryRadius, SpatialHash.bucket, cellOf, intRange,
      Registry.valid, distSq, ENEMY_STOP_RADIUS, List.foldl, List.range_succ, List.foldr,
      List.filter, List.filterMap, List.any_cons, Prod.mk.injEq, Prod.ext_iff]
    simp
  · norm_num [distSq, ENEMY_STOP_RADIUS]

/-- Witness for claim_C7_contact_amended at the concrete contact
scenario. -/
theorem claim_C7_witness :
    ∃ fm, regC7.formation 0 = some fm ∧
      ∃ M m, M ∈ regC7.entities ∧ memberFilter regC7 M = true ∧ regC7.member M = some m ∧
        m.formation = 0 ∧ m.rank = fm.frontRank ∧
        ∃ E px py, (E, px, py) ∈ hashC7.items ∧ E ≠ M ∧ regC7.valid E = true ∧
          regC7.dead E = false ∧ (∃ tE, regC7.team E = some tE ∧ tE ≠ TeamV.Red) ∧
          |px - ((regC7.pos M).getD ⟨0, 0⟩).x| < ENEMY_STOP_RADIUS + hashC7.cellSize ∧
          |py - ((regC7.pos M).getD ⟨0, 0⟩).y| < ENEMY_STOP_RADIUS + hashC7.cellSize :=
  claim_C7_contact_amended regC7 hashC7 0 TeamV.Red (by norm_num [hashC7, buildSpatialHash])
    (by
      intro e he hf m hm hmf
      simp only [regC7, List.mem_cons] at he
      rcases he with rfl | rfl | rfl | hcontra
      · simp [regC7] at hm
      · rfl
      · simp [regC7] at hm
      · simp at hcontra)
    (by
      norm_num [checkEnemyContact, contactStep, enemyNear, memberFilter, regC7, hashC7,
        buildSpatialHash, SpatialHash.queryRadius, SpatialHash.bucket, cellOf, intRange,
        Registry.valid, distSq, ENEMY_STOP_RADIUS, List.foldl, List.range_succ, List.foldr,
        List.filter, List.filterMap, List.any_cons, Prod.mk.injEq, Prod.ext_iff]
      simp)

end ClaimC7

section FrameLemmas

variable {α : Type} [LinearOrderedField α] [FloorRing α]

/-- A fold preserves any property preserved by each step. -/
lemma foldl_preserves {β : Type} {P : β → Prop} {step : β → Entity → β} {l : List Entity}
    {b : β} (hstep : ∀ b' e, e ∈ l → P b' → P (step b' e)) (hb : P b) :
    P (l.foldl step b) := by
  induction l generalizing b with
  | nil => exact hb
  | cons c t ih =>
    exact ih (fun b' e he => hstep b' e (List.mem_cons_of_mem c he))
      (hstep b c (List.mem_cons_self c t) hb)

/-- FormationSystem::update touches only the iterated entity's Position
and Formation components: everything else is framed. -/
lemma formationStep_frame (sqrt : α → α) (h : SpatialHash α) (dt : α) (r : Registry α)
    (g : Entity) :
    (formationStep sqrt h dt r g).entities = r.entities ∧
    (formationStep sqrt h dt r g).vel = r.vel ∧
    (formationStep sqrt h dt r g).team = r.team ∧
    (formationStep sqrt h dt r g).stats = r.stats ∧
    (formationStep sqrt h dt r g).unit = r.unit ∧
    (formationStep sqrt h dt r g).member = r.member ∧
    (formationStep sqrt h dt r g).mtarget = r.mtarget ∧
    (formationStep sqrt h dt r g).inCombat = r.inCombat ∧
    (formationStep sqrt h dt r g).routing = r.routing ∧
    (formationStep sqrt h dt r g).dead = r.dead ∧
    (formationStep sqrt h dt r g).pursuing = r.pursuing ∧
    (formationStep sqrt h dt r g).flash = r.flash ∧
    (∀ e, e ≠ g → (formationStep sqrt h dt r g).pos e = r.pos e) ∧
    (∀ e, ((formationStep sqrt h dt r g).pos e).isSome = (r.pos e).isSome) ∧
    (∀ e, e ≠ g → (formationStep sqrt h dt r g).formation e = r.formation e) := by
  unfold formationStep
  rcases hpos : r.pos g with _ | pos <;> rcases hfm : r.formation g with _ | fm
  · refine ⟨rfl, rfl, rfl, rfl, rfl, rfl, rfl, rfl, rfl, rfl, rfl, rfl, ?_, ?_, ?_⟩ <;>
      simp
  · refine ⟨rfl, rfl, rfl, rfl, rfl, rfl, rfl, rfl, rfl, rfl, rfl, rfl, ?_, ?_, ?_⟩ <;>
      simp
  · refine ⟨rfl, rfl, rfl, rfl, rfl, rfl, rfl, rfl, rfl, rfl, rfl, rfl, ?_, ?_, ?_⟩ <;>
      simp
  · rcases hstate : fm.state with _ | _ | _ | _
    · simp only [hstate]
      by_cases hcontact : checkEnemyContact r h g = true
      · rw [if_pos hcontact]
        refine ⟨rfl, rfl, rfl, rfl, rfl, rfl, rfl, rfl, rfl, rfl, rfl, rfl, ?_, ?_, ?_⟩
        · intro e _
          rfl
        · intro e
          rfl
        · intro e hne
          simp [upd, hne]
      · rw [if_neg hcontact]
        by_cases hdist : 1 < distSq pos.x pos.y fm.targetPosition.x fm.targetPosition.y
        · rw [if_pos hdist]
          refine ⟨rfl, rfl, rfl, rfl, rfl, rfl, rfl, rfl, rfl, rfl, rfl, rfl, ?_, ?_, ?_⟩
          · intro e hne
            simp [upd, hne]
          · intro e
            by_cases he : e = g
            · subst he
              simp [upd, hpos]
            · simp [upd, he]
          · intro e _
            rfl
        · rw [if_neg hdist]
          exact ⟨rfl, rfl, rfl, rfl, rfl, rfl, rfl, rfl, rfl, rfl, rfl, rfl,
            fun _ _ => rfl, fun _ => rfl, fun _ _ => rfl⟩
    · simp [hstate]
    · simp [hstate]
    · simp [hstate]

/-- Agreement of two registries on every component table except
Position and Velocity (the only things the Movement System writes). -/
def sameExceptPosVel (r r' : Registry α) : Prop :=
  r'.entities = r.entities ∧ r'.team = r.team ∧ r'.stats = r.stats ∧ r'.unit = r.unit ∧
  r'.formation = r.formation ∧ r'.member = r.member ∧ r'.mtarget = r.mtarget ∧
  r'.inCombat = r.inCombat ∧ r'.routing = r.routing ∧ r'.dead = r.dead ∧
  r'.pursuing = r.pursuing ∧ r'.flash = r.flash

lemma sameExceptPosVel_refl (r : Registry α) : sameExceptPosVel r r :=
  ⟨rfl, rfl, rfl, rfl, rfl, rfl, rfl, rfl, rfl, rfl, rfl, rfl⟩

lemma sameExceptPosVel_trans {r1 r2 r3 : Registry α}
    (h12 : sameExceptPosVel r1 r2) (h23 : sameExceptPosVel r2 r3) :
    sameExceptPosVel r1 r3 := by
  obtain ⟨a1, a2, a3, a4, a5, a6, a7, a8, a9, a10, a11, a12⟩ := h12
  obtain ⟨b1, b2, b3, b4, b5, b6, b7, b8, b9, b10, b11, b12⟩ := h23
  exact ⟨b1.trans a1, b2.trans a2, b3.trans a3, b4.trans a4, b5.trans a5, b6.trans a6,
    b7.trans a7, b8.trans a8, b9.trans a9, b10.trans a10, b11.trans a11, b12.trans a12⟩

/-- The Movement System only ever writes Position and Velocity: all
other component tables and the entity list are unchanged by a whole
movement pass. -/
lemma movementUpdate_frame (sqrt : α → α) (h : SpatialHash α) (dt : α) (r : Registry α) :
    sameExceptPosVel r (movementUpdate sqrt h dt r) := by
  have hflee : ∀ (r' : Registry α) e sp,
      sameExceptPosVel r' (fleeFromEnemies sqrt h r' e sp dt) :=
    fun _ _ _ => ⟨rfl, rfl, rfl, rfl, rfl, rfl, rfl, rfl, rfl, rfl, rfl, rfl⟩
  have hmember : ∀ (r' : Registry α) e fm fpos sp,
      sameExceptPosVel r' (moveFormationMember sqrt h r' e fm fpos sp dt) :=
    fun _ _ _ _ _ => ⟨rfl, rfl, rfl, rfl, rfl, rfl, rfl, rfl, rfl, rfl, rfl, rfl⟩
  have hfree : ∀ (r' : Registry α) e sp,
      sameExceptPosVel r' (moveFreeUnit sqrt h r' e sp dt) :=
    fun _ _ _ => ⟨rfl, rfl, rfl, rfl, rfl, rfl, rfl, rfl, rfl, rfl, rfl, rfl⟩
  unfold movementUpdate
  apply foldl_preserves
  · intro r' e _ hP
    split
    · split
      · exact hP
      · split
        · exact sameExceptPosVel_trans hP (hfree r' e _)
        · exact hP
    · exact hP
  · apply foldl_preserves
    · intro r' e _ hP
      split
      · split
        · exact hP
        · split
          · exact hP
          · split
            · exact sameExceptPosVel_trans hP (hmember r' e _ _ _)
            · exact hP
      · exact hP
    · apply foldl_preserves
      · intro r' e _ hP
        split
        · exact sameExceptPosVel_trans hP (hflee r' e _)
        · exact hP
      · exact sameExceptPosVel_refl r

/-- Agreement of two registries on the component tables the Combat
System never writes: the entity list, Position, Velocity, Team,
UnitType, Formation, FormationMember and MovementTarget. -/
def sameCombatUntouched (r r' : Registry α) : Prop :=
  r'.entities = r.entities ∧ r'.pos = r.pos ∧ r'.vel = r.vel ∧ r'.team = r.team ∧
  r'.unit = r.unit ∧ r'.formation = r.formation ∧ r'.member = r.member ∧
  r'.mtarget = r.mtarget

lemma sameCombatUntouched_refl (r : Registry α) : sameCombatUntouched r r :=
  ⟨rfl, rfl, rfl, rfl, rfl, rfl, rfl, rfl⟩

lemma sameCombatUntouched_trans {r1 r2 r3 : Registry α}
    (h12 : sameCombatUntouched r1 r2) (h23 : sameCombatUntouched r2 r3) :
    sameCombatUntouched r1 r3 := by
  obtain ⟨a1, a2, a3, a4, a5, a6, a7, a8⟩ := h12
  obtain ⟨b1, b2, b3, b4, b5, b6, b7, b8⟩ := h23
  exact ⟨b1.trans a1, b2.trans a2, b3.trans a3, b4.trans a4, b5.trans a5, b6.trans a6,
    b7.trans a7, b8.trans a8⟩

/-- CombatSystem::checkDeath writes only Stats, Dead, InCombat, Routing
and Pursuing; each untouched table is framed below, one projection per
lemma so that simp can chain them. -/
lemma checkDeath_entities (r : Registry α) (e : Entity) :
    (checkDeath r e).entities = r.entities := by
  unfold checkDeath
  repeat' split
  all_goals rfl

lemma checkDeath_pos (r : Registry α) (e : Entity) :
    (checkDeath r e).pos = r.pos := by
  unfold checkDeath
  repeat' split
  all_goals rfl

lemma checkDeath_vel (r : Registry α) (e : Entity) :
    (checkDeath r e).vel = r.vel := by
  unfold checkDeath
  repeat' split
  all_goals rfl

lemma checkDeath_team (r : Registry α) (e : Entity) :
    (checkDeath r e).team = r.team := by
  unfold checkDeath
  repeat' split
  all_goals rfl

lemma checkDeath_unit (r : Registry α) (e : Entity) :
    (checkDeath r e).unit = r.unit := by
  unfold checkDeath
  repeat' split
  all_goals rfl

lemma checkDeath_formation (r : Registry α) (e : Entity) :
    (checkDeath r e).formation = r.formation := by
  unfold checkDeath
  repeat' split
  all_goals rfl

lemma checkDeath_member (r : Registry α) (e : Entity) :
    (checkDeath r e).member = r.member := by
  unfold checkDeath
  repeat' split
  all_goals rfl

lemma checkDeath_mtarget (r : Registry α) (e : Entity) :
    (checkDeath r e).mtarget = r.mtarget := by
  unfold checkDeath
  repeat' split
  all_goals rfl

/-- CombatSystem::performAttack writes only FlashEffect, Stats and the
checkDeath fields; each untouched table is framed. -/
lemma performAttack_entities (fd : α) (r : Registry α) (g : Rng α)
    (attacker target : Entity) :
    (performAttack fd r g attacker target).1.entities = r.entities := by
  unfold performAttack
  dsimp only
  repeat' split
  all_goals simp [checkDeath_entities, checkDeath_pos, checkDeath_vel, checkDeath_team, checkDeath_unit, checkDeath_formation, checkDeath_member, checkDeath_mtarget]

lemma performAttack_pos (fd : α) (r : Registry α) (g : Rng α)
    (attacker target : Entity) :
    (performAttack fd r g attacker target).1.pos = r.pos := by
  unfold performAttack
  dsimp only
  repeat' split
  all_goals simp [checkDeath_entities, checkDeath_pos, checkDeath_vel, checkDeath_team, checkDeath_unit, checkDeath_formation, checkDeath_member, checkDeath_mtarget]

lemma performAttack_vel (fd : α) (r : Registry α) (g : Rng α)
    (attacker target : Entity) :
    (performAttack fd r g attacker target).1.vel = r.vel := by
  unfold performAttack
  dsimp only
  repeat' split
  all_goals simp [checkDeath_entities, checkDeath_pos, checkDeath_vel, checkDeath_team, checkDeath_unit, checkDeath_formation, checkDeath_member, checkDeath_mtarget]

lemma performAttack_team (fd : α) (r : Registry α) (g : Rng α)
    (attacker target : Entity) :
    (performAttack fd r g attacker target).1.team = r.team := by
  unfold performAttack
  dsimp only
  repeat' split
  all_goals simp [checkDeath_entities, checkDeath_pos, checkDeath_vel, checkDeath_team, checkDeath_unit, checkDeath_formation, checkDeath_member, checkDeath_mtarget]

lemma performAttack_unit (fd : α) (r : Registry α) (g : Rng α)
    (attacker target : Entity) :
    (performAttack fd r g attacker target).1.unit = r.unit := by
  unfold performAttack
  dsimp only
  repeat' split
  all_goals simp [checkDeath_entities, checkDeath_pos, checkDeath_vel, checkDeath_team, checkDeath_unit, checkDeath_formation, checkDeath_member, checkDeath_mtarget]

lemma performAttack_formation (fd : α) (r : Registry α) (g : Rng α)
    (attacker target : Entity) :
    (performAttack fd r g attacker target).1.formation = r.formation := by
  unfold performAttack
  dsimp only
  repeat' split
  all_goals simp [checkDeath_entities, checkDeath_pos, checkDeath_vel, checkDeath_team, checkDeath_unit, checkDeath_formation, checkDeath_member, checkDeath_mtarget]

lemma performAttack_member (fd : α) (r : Registry α) (g : Rng α)
    (attacker target : Entity) :
    (performAttack fd r g attacker target).1.member = r.member := by
  unfold performAttack
  dsimp only
  repeat' split
  all_goals simp [checkDeath_entities, checkDeath_pos, checkDeath_vel, checkDeath_team, checkDeath_unit, checkDeath_formation, checkDeath_member, checkDeath_mtarget]

lemma performAttack_mtarget (fd : α) (r : Registry α) (g : Rng α)
    (attacker target : Entity) :
    (performAttack fd r g attacker target).1.mtarget = r.mtarget := by
  unfold performAttack
  dsimp only
  repeat' split
  all_goals simp [checkDeath_entities, checkDeath_pos, checkDeath_vel, checkDeath_team, checkDeath_unit, checkDeath_formation, checkDeath_member, checkDeath_mtarget]

/-- The per-combatant step writes only InCombat, FlashEffect, Stats and
the checkDeath fields; each untouched table is framed. -/
lemma processCombatant_entities (fd : α) (h : SpatialHash α) (dt : α)
    (rg : Registry α × Rng α) (e : Entity) :
    (processCombatant fd h dt rg e).1.entities = rg.1.entities := by
  unfold processCombatant
  dsimp only
  repeat' split
  all_goals simp [performAttack_entities, performAttack_pos, performAttack_vel, performAttack_team, performAttack_unit, performAttack_formation, performAttack_member, performAttack_mtarget]

lemma processCombatant_pos (fd : α) (h : SpatialHash α) (dt : α)
    (rg : Registry α × Rng α) (e : Entity) :
    (processCombatant fd h dt rg e).1.pos = rg.1.pos := by
  unfold processCombatant
  dsimp only
  repeat' split
  all_goals simp [performAttack_entities, performAttack_pos, performAttack_vel, performAttack_team, performAttack_unit, performAttack_formation, performAttack_member, performAttack_mtarget]

lemma processCombatant_vel (fd : α) (h : SpatialHash α) (dt : α)
    (rg : Registry α × Rng α) (e : Entity) :
    (processCombatant fd h dt rg e).1.vel = rg.1.vel := by
  unfold processCombatant
  dsimp only
  repeat' split
  all_goals simp [performAttack_entities, performAttack_pos, performAttack_vel, performAttack_team, performAttack_unit, performAttack_formation, performAttack_member, performAttack_mtarget]

lemma processCombatant_team (fd : α) (h : SpatialHash α) (dt : α)
    (rg : Registry α × Rng α) (e : Entity) :
    (processCombatant fd h dt rg e).1.team = rg.1.team := by
  unfold processCombatant
  dsimp only
  repeat' split
  all_goals simp [performAttack_entities, performAttack_pos, performAttack_vel, performAttack_team, performAttack_unit, performAttack_formation, performAttack_member, performAttack_mtarget]

lemma processCombatant_unit (fd : α) (h : SpatialHash α) (dt : α)
    (rg : Registry α × Rng α) (e : Entity) :
    (processCombatant fd h dt rg e).1.unit = rg.1.unit := by
  unfold processCombatant
  dsimp only
  repeat' split
  all_goals simp [performAttack_entities, performAttack_pos, performAttack_vel, performAttack_team, performAttack_unit, performAttack_formation, performAttack_member, performAttack_mtarget]

lemma processCombatant_formation (fd : α) (h : SpatialHash α) (dt : α)
    (rg : Registry α × Rng α) (e : Entity) :
    (processCombatant fd h dt rg e).1.formation = rg.1.formation := by
  unfold processCombatant
  dsimp only
  repeat' split
  all_goals simp [performAttack_entities, performAttack_pos, performAttack_vel, performAttack_team, performAttack_unit, performAttack_formation, performAttack_member, performAttack_mtarget]

lemma processCombatant_member (fd : α) (h : SpatialHash α) (dt : α)
    (rg : Registry α × Rng α) (e : Entity) :
    (processCombatant fd h dt rg e).1.member = rg.1.member := by
  unfold processCombatant
  dsimp only
  repeat' split
  all_goals simp [performAttack_entities, performAttack_pos, performAttack_vel, performAttack_team, performAttack_unit, performAttack_formation, performAttack_member, performAttack_mtarget]

lemma processCombatant_mtarget (fd : α) (h : SpatialHash α) (dt : α)
    (rg : Registry α × Rng α) (e : Entity) :
    (processCombatant fd h dt rg e).1.mtarget = rg.1.mtarget := by
  unfold processCombatant
  dsimp only
  repeat' split
  all_goals simp [performAttack_entities, performAttack_pos, performAttack_vel, performAttack_team, performAttack_unit, performAttack_formation, performAttack_member, performAttack_mtarget]

/-- The flash-decay pass writes only FlashEffect. -/
lemma decayFlash_entities (dt : α) (r : Registry α) (e : Entity) :
    (decayFlash dt r e).entities = r.entities := by
  unfold decayFlash
  dsimp only
  repeat' split
  all_goals rfl

lemma decayFlash_pos (dt : α) (r : Registry α) (e : Entity) :
    (decayFlash dt r e).pos = r.pos := by
  unfold decayFlash
  dsimp only
  repeat' split
  all_goals rfl

lemma decayFlash_vel (dt : α) (r : Registry α) (e : Entity) :
    (decayFlash dt r e).vel = r.vel := by
  unfold decayFlash
  dsimp only
  repeat' split
  all_goals rfl

lemma decayFlash_team (dt : α) (r : Registry α) (e : Entity) :
    (decayFlash dt r e).team = r.team := by
  unfold decayFlash
  dsimp only
  repeat' split
  all_goals rfl

lemma decayFlash_unit (dt : α) (r : Registry α) (e : Entity) :
    (decayFlash dt r e).unit = r.unit := by
  unfold decayFlash
  dsimp only
  repeat' split
  all_goals rfl

lemma decayFlash_formation (dt : α) (r : Registry α) (e : Entity) :
    (decayFlash dt r e).formation = r.formation := by
  unfold decayFlash
  dsimp only
  repeat' split
  all_goals rfl

lemma decayFlash_member (dt : α) (r : Registry α) (e : Entity) :
    (decayFlash dt r e).member = r.member := by
  unfold decayFlash
  dsimp only
  repeat' split
  all_goals rfl

lemma decayFlash_mtarget (dt : α) (r : Registry α) (e : Entity) :
    (decayFlash dt r e).mtarget = r.mtarget := by
  unfold decayFlash
  dsimp only
  repeat' split
  all_goals rfl

/-- CombatSystem::update never writes the entity list, Position,
Velocity, Team, UnitType, Formation, FormationMember or MovementTarget. -/
lemma combatUpdate_frame (fd : α) (h : SpatialHash α) (dt : α) (r : Registry α)
    (g : Rng α) :
    sameCombatUntouched r (combatUpdate fd h dt r g).1 := by
  unfold combatUpdate
  have hflash : sameCombatUntouched r (r.entities.foldl (decayFlash dt) r) :=
    foldl_preserves
      (fun r' e _ hP => sameCombatUntouched_trans hP
        ⟨decayFlash_entities dt r' e, decayFlash_pos dt r' e, decayFlash_vel dt r' e, decayFlash_team dt r' e, decayFlash_unit dt r' e, decayFlash_formation dt r' e, decayFlash_member dt r' e, decayFlash_mtarget dt r' e⟩)
      (sameCombatUntouched_refl r)
  have hrw : (r.entities.foldl (decayFlash dt) r).entities = r.entities := hflash.1
  dsimp only
  rw [hrw]
  exact @foldl_preserves (Registry α × Rng α)
    (fun rg' => sameCombatUntouched r rg'.1) _ _ _
    (fun rg' e _ hP => by
      split
      · exact sameCombatUntouched_trans hP
          ⟨processCombatant_entities fd h dt rg' e, processCombatant_pos fd h dt rg' e, processCombatant_vel fd h dt rg' e, processCombatant_team fd h dt rg' e, processCombatant_unit fd h dt rg' e, processCombatant_formation fd h dt rg' e, processCombatant_member fd h dt rg' e, processCombatant_mtarget fd h dt rg' e⟩
      · exact hP)
    hflash

end FrameLemmas

section ClaimC3Lemmas

variable {α : Type} [LinearOrderedField α] [FloorRing α]

/-- The facts about a base registry r that the enemy-contact test for
soldier M reads, preserved while other formation entities move during
the same Formation System pass. -/
def contactCtx (r r' : Registry α) (M : Entity) : Prop :=
  r'.entities = r.entities ∧ r'.member = r.member ∧ r'.team = r.team ∧
  r'.dead = r.dead ∧ r'.routing = r.routing ∧ r'.pos M = r.pos M ∧
  (∀ e, (r'.pos e).isSome = (r.pos e).isSome) ∧ r'.formation M = r.formation M

lemma contactCtx_refl (r : Registry α) (M : Entity) : contactCtx r r M :=
  ⟨rfl, rfl, rfl, rfl, rfl, rfl, fun _ => rfl, rfl⟩

lemma memberFilter_congr {r r' : Registry α} {M : Entity} (hctx : contactCtx r r' M)
    (e : Entity) : memberFilter r' e = memberFilter r e := by
  obtain ⟨h1, h2, h3, h4, h5, h6, h7, h8⟩ := hctx
  unfold memberFilter
  rw [h2, h3, h4, h5, h7 e]

/-- Under the preserved context, the enemy-contact test of the base
scenario still fires: the front-rank member M with an alive
opposing-team entity inserted within ENEMY_STOP_RADIUS forces contact. -/
lemma checkEnemyContact_transfer {r r' : Registry α} {h : SpatialHash α}
    {f M E : Entity} {m : FormationMember α} {fm : Formation α} {T tE : TeamV}
    {px py : α}
    (hctx : contactCtx r r' M)
    (hc : 0 < h.cellSize)
    (hfm' : r'.formation f = some fm)
    (hMent : M ∈ r.entities) (hMfilter : memberFilter r M = true)
    (hMm : r.member M = some m) (hmf : m.formation = f) (hrank : m.rank = fm.frontRank)
    (hteamAll : ∀ e ∈ r.entities, memberFilter r e = true →
      ∀ m', r.member e = some m' → m'.formation = f → r.team e = some T)
    (hitems : (E, px, py) ∈ h.items) (hEne : E ≠ M) (hEent : E ∈ r.entities)
    (hEdead : r.dead E = false) (hEteam : r.team E = some tE) (htne : tE ≠ T)
    (hdist : distSq ((r.pos M).getD ⟨0, 0⟩).x ((r.pos M).getD ⟨0, 0⟩).y px py ≤
      ENEMY_STOP_RADIUS ^ 2) :
    checkEnemyContact r' h f = true := by
  obtain ⟨h1, h2, h3, h4, h5, h6, h7, h8⟩ := hctx
  unfold checkEnemyContact
  rw [hfm']
  have hnear : enemyNear r' h M T = true := by
    refine enemyNear_complete hc hitems hEne ?_ ?_ ?_ htne ?_
    · unfold Registry.valid
      rw [h1]
      simpa using hEent
    · rw [h4]
      exact hEdead
    · rw [h3]
      exact hEteam
    · rw [h6]
      exact hdist
  refine contact_fold_complete r'.entities (false, false, TeamV.Red)
    (fun x hx => hx) ?_ (fun hcontra => absurd hcontra (by simp)) ?_ ?_ ?_ hmf hrank hnear
  · intro e he hf' m' hm' hmf'
    rw [h3]
    rw [h1] at he
    rw [memberFilter_congr ⟨h1, h2, h3, h4, h5, h6, h7, h8⟩ e] at hf'
    rw [h2] at hm'
    exact hteamAll e he hf' m' hm' hmf'
  · rw [h1]
    exact hMent
  · rw [memberFilter_congr ⟨h1, h2, h3, h4, h5, h6, h7, h8⟩ M]
    exact hMfilter
  · rw [h2]
    exact hMm

lemma upd_same {β : Type} (f0 : Entity → β) (e : Entity) (v : β) : upd f0 e v e = v := by
  simp [upd]

lemma upd_ne {β : Type} (f0 : Entity → β) {x e : Entity} (v : β) (hne : x ≠ e) :
    upd f0 e v x = f0 x := by
  simp [upd, hne]

/-- An Advancing formation whose contact test fires switches to Engaged
and performs no movement. -/
lemma formationStep_engages_at {r : Registry α} {f : Entity} {pos : Vec2 α}
    {fm : Formation α} (sqrt : α → α) (h : SpatialHash α) (dt : α)
    (hpos : r.pos f = some pos) (hfm : r.formation f = some fm)
    (hstate : fm.state = FormationState.Advancing)
    (hcontact : checkEnemyContact r h f = true) :
    formationStep sqrt h dt r f =
      { r with formation := upd r.formation f (some { fm with state := FormationState.Engaged }) } := by
  unfold formationStep
  rw [hpos, hfm]
  dsimp only
  rw [hstate]
  dsimp only
  rw [if_pos hcontact]

/-- A formation already Engaged is left untouched by its own step. -/
lemma formationStep_engaged_id {r : Registry α} {g : Entity} {fm : Formation α}
    (sqrt : α → α) (h : SpatialHash α) (dt : α)
    (hfm : r.formation g = some fm) (hstate : fm.state = FormationState.Engaged) :
    formationStep sqrt h dt r g = r := by
  unfold formationStep
  rcases hpos : r.pos g with _ | pos
  · rfl
  · rw [hfm]
    dsimp only
    rw [hstate]

/-- Fold invariant for the engage argument: the contact context is
preserved, the formation's position is unmoved and its component is
either still the original Advancing record or already the Engaged
version. -/
def engInv (r : Registry α) (f M : Entity) (pos : Vec2 α) (fm : Formation α)
    (r' : Registry α) : Prop :=
  contactCtx r r' M ∧ r'.pos f = some pos ∧
    (r'.formation f = some fm ∨
      r'.formation f = some { fm with state := FormationState.Engaged })

/-- Strengthened invariant once the formation has switched to Engaged. -/
def engInv2 (r : Registry α) (f M : Entity) (pos : Vec2 α) (fm : Formation α)
    (r' : Registry α) : Prop :=
  contactCtx r r' M ∧ r'.pos f = some pos ∧
    r'.formation f = some { fm with state := FormationState.Engaged }

end ClaimC3Lemmas

section ClaimC3Fold

/-- The contact context survives one formation step of another entity,
and the tracked formation's record and position follow the invariant. -/
lemma engStep_preserves {α : Type} [LinearOrderedField α] [FloorRing α]
    (sqrt : α → α) (h : SpatialHash α) (dt : α) (r : Registry α)
    (f M E : Entity) (m : FormationMember α) (fm : Formation α) (pos : Vec2 α)
    (T tE : TeamV) (px py : α)
    (hc : 0 < h.cellSize)
    (hpos0 : r.pos f = some pos) (hfm0 : r.formation f = some fm)
    (hstate0 : fm.state = FormationState.Advancing)
    (hMent : M ∈ r.entities) (hMfilter : memberFilter r M = true)
    (hMm : r.member M = some m) (hmf : m.formation = f)
    (hrank : m.rank = fm.frontRank) (hMform : r.formation M = none)
    (hteamAll : ∀ e ∈ r.entities, memberFilter r e = true →
      ∀ m', r.member e = some m' → m'.formation = f → r.team e = some T)
    (hitems : (E, px, py) ∈ h.items) (hEne : E ≠ M) (hEent : E ∈ r.entities)
    (hEdead : r.dead E = false) (hEteam : r.team E = some tE) (htne : tE ≠ T)
    (hdist : distSq ((r.pos M).getD ⟨0, 0⟩).x ((r.pos M).getD ⟨0, 0⟩).y px py ≤
      ENEMY_STOP_RADIUS ^ 2)
    (r' : Registry α) (g : Entity)
    (hInv : engInv r f M pos fm r') :
    engInv r f M pos fm
      (if ((r'.pos g).isSome && (r'.formation g).isSome) = true
        then formationStep sqrt h dt r' g else r') := by
  obtain ⟨hctx, hposf, hdisj⟩ := hInv
  by_cases hfilter : ((r'.pos g).isSome && (r'.formation g).isSome) = true
  · rw [if_pos hfilter]
    have hgM : g ≠ M := by
      intro hgm
      subst hgm
      have : r'.formation g = none := hctx.2.2.2.2.2.2.2.trans hMform
      simp [this] at hfilter
    by_cases hgf : g = f
    · subst hgf
      rcases hdisj with hAdv | hEng
      · have hcontact : checkEnemyContact r' h g = true :=
          checkEnemyContact_transfer hctx hc hAdv hMent hMfilter hMm hmf hrank hteamAll
            hitems hEne hEent hEdead hEteam htne hdist
        rw [formationStep_engages_at sqrt h dt hposf hAdv hstate0 hcontact]
        obtain ⟨h1, h2, h3, h4, h5, h6, h7, h8⟩ := hctx
        refine ⟨⟨h1, h2, h3, h4, h5, h6, h7, ?_⟩, hposf, Or.inr ?_⟩
        · exact (upd_ne r'.formation _ (Ne.symm hgM)).trans h8
        · exact upd_same r'.formation g _
      · rw [formationStep_engaged_id sqrt h dt hEng rfl]
        exact ⟨hctx, hposf, Or.inr hEng⟩
    · obtain ⟨f1, f2, f3, f4, f5, f6, f7, f8, f9, f10, f11, f12, fpos, fposSome, fform⟩ :=
        formationStep_frame sqrt h dt r' g
      obtain ⟨h1, h2, h3, h4, h5, h6, h7, h8⟩ := hctx
      refine ⟨⟨f1.trans h1, f6.trans h2, f3.trans h3, f10.trans h4, f9.trans h5,
        (fpos M hgM.symm ▸ h6 : _), fun e => (fposSome e).trans (h7 e),
        (fform M hgM.symm).trans h8⟩, ?_, ?_⟩
      · rw [fpos f (fun hyp => hgf hyp.symm)]
        exact hposf
      · rw [fform f (fun hyp => hgf hyp.symm)]
        exact hdisj
  · rw [if_neg hfilter]
    exact ⟨hctx, hposf, hdisj⟩

/-- Once Engaged, further steps of the same pass leave the formation
untouched. -/
lemma engStep_preserves2 {α : Type} [LinearOrderedField α] [FloorRing α]
    (sqrt : α → α) (h : SpatialHash α) (dt : α) (r : Registry α)
    (f M : Entity) (fm : Formation α) (pos : Vec2 α)
    (hMform : r.formation M = none)
    (r' : Registry α) (g : Entity)
    (hInv : engInv2 r f M pos fm r') :
    engInv2 r f M pos fm
      (if ((r'.pos g).isSome && (r'.formation g).isSome) = true
        then formationStep sqrt h dt r' g else r') := by
  obtain ⟨hctx, hposf, hEng⟩ := hInv
  by_cases hfilter : ((r'.pos g).isSome && (r'.formation g).isSome) = true
  · rw [if_pos hfilter]
    have hgM : g ≠ M := by
      intro hgm
      subst hgm
      have : r'.formation g = none := hctx.2.2.2.2.2.2.2.trans hMform
      simp [this] at hfilter
    by_cases hgf : g = f
    · subst hgf
      rw [formationStep_engaged_id sqrt h dt hEng rfl]
      exact ⟨hctx, hposf, hEng⟩
    · obtain ⟨f1, f2, f3, f4, f5, f6, f7, f8, f9, f10, f11, f12, fpos, fposSome, fform⟩ :=
        formationStep_frame sqrt h dt r' g
      obtain ⟨h1, h2, h3, h4, h5, h6, h7, h8⟩ := hctx
      refine ⟨⟨f1.trans h1, f6.trans h2, f3.trans h3, f10.trans h4, f9.trans h5,
        (fpos M hgM.symm ▸ h6 : _), fun e => (fposSome e).trans (h7 e),
        (fform M hgM.symm).trans h8⟩, ?_, ?_⟩
      · rw [fpos f (fun hyp => hgf hyp.symm)]
        exact hposf
      · rw [fform f (fun hyp => hgf hyp.symm)]
        exact hEng
  · rw [if_neg hfilter]
    exact ⟨hctx, hposf, hEng⟩

/-- Processing the tracked formation itself under the invariant yields
the Engaged version. -/
lemma engStep_engages {α : Type} [LinearOrderedField α] [FloorRing α]
    (sqrt : α → α) (h : SpatialHash α) (dt : α) (r : Registry α)
    (f M E : Entity) (m : FormationMember α) (fm : Formation α) (pos : Vec2 α)
    (T tE : TeamV) (px py : α)
    (hc : 0 < h.cellSize)
    (hpos0 : r.pos f = some pos) (hfm0 : r.formation f = some fm)
    (hstate0 : fm.state = FormationState.Advancing)
    (hMent : M ∈ r.entities) (hMfilter : memberFilter r M = true)
    (hMm : r.member M = some m) (hmf : m.formation = f)
    (hrank : m.rank = fm.frontRank) (hMform : r.formation M = none)
    (hteamAll : ∀ e ∈ r.entities, memberFilter r e = true →
      ∀ m', r.member e = some m' → m'.formation = f → r.team e = some T)
    (hitems : (E, px, py) ∈ h.items) (hEne : E ≠ M) (hEent : E ∈ r.entities)
    (hEdead : r.dead E = false) (hEteam : r.team E = some tE) (htne : tE ≠ T)
    (hdist : distSq ((r.pos M).getD ⟨0, 0⟩).x ((r.pos M).getD ⟨0, 0⟩).y px py ≤
      ENEMY_STOP_RADIUS ^ 2)
    (r' : Registry α) (hInv : engInv r f M pos fm r') :
    engInv2 r f M pos fm
      (if ((r'.pos f).isSome && (r'.formation f).isSome) = true
        then formationStep sqrt h dt r' f else r') := by
  obtain ⟨hctx, hposf, hdisj⟩ := hInv
  have hfilter : ((r'.pos f).isSome && (r'.formation f).isSome) = true := by
    rcases hdisj with hAdv | hEng
    · simp [hposf, hAdv]
    · simp [hposf, hEng]
  rw [if_pos hfilter]
  rcases hdisj with hAdv | hEng
  · have hcontact : checkEnemyContact r' h f = true :=
      checkEnemyContact_transfer hctx hc hAdv hMent hMfilter hMm hmf hrank hteamAll
        hitems hEne hEent hEdead hEteam htne hdist
    rw [formationStep_engages_at sqrt h dt hposf hAdv hstate0 hcontact]
    have hMf : M ≠ f := by
      intro hmfeq
      rw [hmfeq, hfm0] at hMform
      exact absurd hMform (by simp)
    obtain ⟨h1, h2, h3, h4, h5, h6, h7, h8⟩ := hctx
    refine ⟨⟨h1, h2, h3, h4, h5, h6, h7, ?_⟩, hposf, ?_⟩
    · exact (upd_ne r'.formation _ hMf).trans h8
    · exact upd_same r'.formation f _
  · rw [formationStep_engaged_id sqrt h dt hEng rfl]
    exact ⟨hctx, hposf, hEng⟩

/-- The whole Formation System pass switches the contacted Advancing
formation to Engaged and does not move its position. -/
lemma formationUpdate_engages {α : Type} [LinearOrderedField α] [FloorRing α]
    (sqrt : α → α) (h : SpatialHash α) (dt : α) (r : Registry α)
    (f M E : Entity) (m : FormationMember α) (fm : Formation α) (pos : Vec2 α)
    (T tE : TeamV) (px py : α)
    (hc : 0 < h.cellSize)
    (hpos0 : r.pos f = some pos) (hfm0 : r.formation f = some fm)
    (hstate0 : fm.state = FormationState.Advancing)
    (hMent : M ∈ r.entities) (hMfilter : memberFilter r M = true)
    (hMm : r.member M = some m) (hmf : m.formation = f)
    (hrank : m.rank = fm.frontRank) (hMform : r.formation M = none)
    (hteamAll : ∀ e ∈ r.entities, memberFilter r e = true →
      ∀ m', r.member e = some m' → m'.formation = f → r.team e = some T)
    (hitems : (E, px, py) ∈ h.items) (hEne : E ≠ M) (hEent : E ∈ r.entities)
    (hEdead : r.dead E = false) (hEteam : r.team E = some tE) (htne : tE ≠ T)
    (hdist : distSq ((r.pos M).getD ⟨0, 0⟩).x ((r.pos M).getD ⟨0, 0⟩).y px py ≤
      ENEMY_STOP_RADIUS ^ 2)
    (hfent : f ∈ r.entities) :
    (formationUpdate sqrt h dt r).formation f =
      some { fm with state := FormationState.Engaged } ∧
    (formationUpdate sqrt h dt r).pos f = some pos := by
  obtain ⟨l1, l2, hsplit⟩ := List.append_of_mem hfent
  unfold formationUpdate
  rw [hsplit, List.foldl_append, List.foldl_cons]
  have hInv1 : engInv r f M pos fm (l1.foldl
      (fun r' g => if ((r'.pos g).isSome && (r'.formation g).isSome) = true
        then formationStep sqrt h dt r' g else r') r) :=
    foldl_preserves
      (fun r' g _ hP => engStep_preserves sqrt h dt r f M E m fm pos T tE px py hc hpos0 hfm0 hstate0 hMent hMfilter hMm hmf hrank hMform hteamAll hitems hEne hEent hEdead hEteam htne hdist r' g hP)
      ⟨contactCtx_refl r M, hpos0, Or.inl hfm0⟩
  have hInv2 := engStep_engages sqrt h dt r f M E m fm pos T tE px py hc hpos0 hfm0 hstate0 hMent hMfilter hMm hmf hrank hMform hteamAll hitems hEne hEent hEdead hEteam htne hdist _ hInv1
  have hInv3 : engInv2 r f M pos fm (l2.foldl
      (fun r' g => if ((r'.pos g).isSome && (r'.formation g).isSome) = true
        then formationStep sqrt h dt r' g else r')
      ((fun r' g => if ((r'.pos g).isSome && (r'.formation g).isSome) = true
        then formationStep sqrt h dt r' g else r')
        (l1.foldl (fun r' g => if ((r'.pos g).isSome && (r'.formation g).isSome) = true
          then formationStep sqrt h dt r' g else r') r) f)) :=
    foldl_preserves
      (fun r' g _ hP => engStep_preserves2 sqrt h dt r f M fm pos hMform r' g hP)
      hInv2
  exact ⟨hInv3.2.2, hInv3.2.1⟩

end ClaimC3Fold

section ClaimC3

variable {α : Type} [LinearOrderedField α] [FloorRing α]

/-- An Engaged formation's component survives a whole Formation System
pass unchanged. -/
lemma formationUpdate_keeps_engaged (sqrt : α → α) (h : SpatialHash α) (dt : α)
    (r : Registry α) (f : Entity) (fm : Formation α)
    (hfm : r.formation f = some fm) (hstate : fm.state = FormationState.Engaged) :
    (formationUpdate sqrt h dt r).formation f = some fm := by
  unfold formationUpdate
  refine @foldl_preserves (Registry α) (fun r' => r'.formation f = some fm) _ _ _
    (fun r' g _ hP => ?_) hfm
  by_cases hfilter : ((r'.pos g).isSome && (r'.formation g).isSome) = true
  · rw [if_pos hfilter]
    by_cases hgf : g = f
    · subst hgf
      rw [formationStep_engaged_id sqrt h dt hP hstate]
      exact hP
    · exact ((formationStep_frame sqrt h dt r' g).2.2.2.2.2.2.2.2.2.2.2.2.2.2 f
        (fun hyp => hgf hyp.symm)).trans hP
  · rw [if_neg hfilter]
    exact hP

/-- An Engaged formation's component survives a whole simulation tick
unchanged. -/
lemma tick_keeps_engaged (sqrt : α → α) (fd dt : α) (rg : Registry α × Rng α)
    (f : Entity) (fm : Formation α)
    (hfm : rg.1.formation f = some fm) (hstate : fm.state = FormationState.Engaged) :
    (tick sqrt fd dt rg).1.formation f = some fm := by
  unfold tick
  have h1 := formationUpdate_keeps_engaged sqrt
    (buildSpatialHash rg.1 SPATIAL_HASH_CELL_SIZE) dt rg.1 f fm hfm hstate
  have h2 := (movementUpdate_frame sqrt (buildSpatialHash rg.1 SPATIAL_HASH_CELL_SIZE) dt
    (formationUpdate sqrt (buildSpatialHash rg.1 SPATIAL_HASH_CELL_SIZE) dt rg.1)).2.2.2.2.1
  have h3 := (combatUpdate_frame fd (buildSpatialHash rg.1 SPATIAL_HASH_CELL_SIZE) dt
    (movementUpdate sqrt (buildSpatialHash rg.1 SPATIAL_HASH_CELL_SIZE) dt
      (formationUpdate sqrt (buildSpatialHash rg.1 SPATIAL_HASH_CELL_SIZE) dt rg.1))
    rg.2).2.2.2.2.2.1
  rw [h3, h2]
  exact h1

/-- An Engaged formation's component survives any number of ticks. -/
lemma run_keeps_engaged (sqrt : α → α) (fd dt : α) (rg : Registry α × Rng α)
    (f : Entity) (fm : Formation α) (n : Nat)
    (hfm : rg.1.formation f = some fm) (hstate : fm.state = FormationState.Engaged) :
    (run sqrt fd dt n rg).1.formation f = some fm := by
  induction n with
  | zero => exact hfm
  | succ k ih =>
    unfold run at ih ⊢
    rw [Function.iterate_succ_apply']
    exact tick_keeps_engaged sqrt fd dt _ f fm ih hstate

/-- Claim C3 (confirmed): an Advancing formation with an alive,
non-routing front-rank member within exact distance ENEMY_STOP_RADIUS
of an alive opposing-team entity present in the spatial index switches
to Engaged during that Formation System pass and its position is not
moved that pass; and a formation once Engaged keeps its exact Engaged
Formation component (hence never reverts to Advancing) under every
subsequent tick.  The team-uniformity hypothesis reflects that the code
determines the formation's team from its first member. -/
theorem claim_C3_formation_transition {α : Type} [LinearOrderedField α] [FloorRing α]
    (sqrt : α → α) (h : SpatialHash α) (dt : α) (r : Registry α)
    (f M E : Entity) (m : FormationMember α) (fm : Formation α) (pos : Vec2 α)
    (T tE : TeamV) (px py : α)
    (hc : 0 < h.cellSize)
    (hpos0 : r.pos f = some pos) (hfm0 : r.formation f = some fm)
    (hstate0 : fm.state = FormationState.Advancing)
    (hMent : M ∈ r.entities) (hMfilter : memberFilter r M = true)
    (hMm : r.member M = some m) (hmf : m.formation = f)
    (hrank : m.rank = fm.frontRank) (hMform : r.formation M = none)
    (hteamAll : ∀ e ∈ r.entities, memberFilter r e = true →
      ∀ m', r.member e = some m' → m'.formation = f → r.team e = some T)
    (hitems : (E, px, py) ∈ h.items) (hEne : E ≠ M) (hEent : E ∈ r.entities)
    (hEdead : r.dead E = false) (hEteam : r.team E = some tE) (htne : tE ≠ T)
    (hdist : distSq ((r.pos M).getD ⟨0, 0⟩).x ((r.pos M).getD ⟨0, 0⟩).y px py ≤
      ENEMY_STOP_RADIUS ^ 2)
    (hfent : f ∈ r.entities) :
    ((formationUpdate sqrt h dt r).formation f =
        some { fm with state := FormationState.Engaged } ∧
      (formationUpdate sqrt h dt r).pos f = some pos) ∧
    (∀ (sqrt' : α → α) (fd dt' : α) (rg : Registry α × Rng α) (f' : Entity)
        (fm' : Formation α) (n : Nat),
      rg.1.formation f' = some fm' → fm'.state = FormationState.Engaged →
      (run sqrt' fd dt' n rg).1.formation f' = some fm') :=
  ⟨formationUpdate_engages sqrt h dt r f M E m fm pos T tE px py hc hpos0 hfm0 hstate0
      hMent hMfilter hMm hmf hrank hMform hteamAll hitems hEne hEent hEdead hEteam htne
      hdist hfent,
    fun sqrt' fd dt' rg f' fm' n hfm' hstate' =>
      run_keeps_engaged sqrt' fd dt' rg f' fm' n hfm' hstate'⟩

/-- A concrete engagement scenario: formation entity 0 Advancing, its
Red front-rank member 1 at (5, 5), a Blue soldier 2 at (6, 5), exactly
1 unit away, well within ENEMY_STOP_RADIUS. -/
def regC3 : Registry ℚ where
  entities := [0, 1, 2]
  pos := fun e =>
    if e = 0 then some ⟨0, 0⟩
    else if e = 1 then some ⟨5, 5⟩
    else if e = 2 then some ⟨6, 5⟩ else none
  vel := fun _ => some ⟨0, 0⟩
  team := fun e => if e = 1 then some TeamV.Red else if e = 2 then some TeamV.Blue else none
  stats := fun _ => none
  unit := fun _ => some UnitTypeT.HeavyInfantry
  formation := fun e =>
    if e = 0 then some ⟨⟨0, 100⟩, ⟨0, 1⟩, FormationState.Advancing, 5, 0⟩ else none
  member := fun e => if e = 1 then some ⟨0, ⟨0, 0⟩, 0, 0⟩ else none
  mtarget := fun _ => none
  inCombat := fun _ => none
  routing := fun _ => false
  dead := fun _ => false
  pursuing := fun _ => none
  flash := fun _ => none

def hashC3 : SpatialHash ℚ := buildSpatialHash regC3 10

/-- Witness for claim_C3_formation_transition at the concrete
engagement scenario. -/
theorem claim_C3_witness :
    (((formationUpdate (fun _ => 0) hashC3 (1/60) regC3).formation 0 =
        some { targetPosition := ⟨0, 100⟩, facing := ⟨0, 1⟩,
               state := FormationState.Engaged, speed := 5, frontRank := 0 } ∧
      (formationUpdate (fun _ => 0) hashC3 (1/60) regC3).pos 0 = some ⟨0, 0⟩) ∧
    (∀ (sqrt' : ℚ → ℚ) (fd dt' : ℚ) (rg : Registry ℚ × Rng ℚ) (f' : Entity)
        (fm' : Formation ℚ) (n : Nat),
      rg.1.formation f' = some fm' → fm'.state = FormationState.Engaged →
      (run sqrt' fd dt' n rg).1.formation f' = some fm')) :=
  claim_C3_formation_transition (fun _ => 0) hashC3 (1/60) regC3 0 1 2
    ⟨0, ⟨0, 0⟩, 0, 0⟩
    ⟨⟨0, 100⟩, ⟨0, 1⟩, FormationState.Advancing, 5, 0⟩ ⟨0, 0⟩
    TeamV.Red TeamV.Blue 6 5
    (by norm_num [hashC3, buildSpatialHash])
    rfl rfl rfl
    (by simp [regC3])
    (by norm_num [memberFilter, regC3])
    rfl rfl rfl rfl
    (by
      intro e he hf m' hm' hmf'
      simp only [regC3, List.mem_cons] at he
      rcases he with rfl | rfl | rfl | hcontra
      · simp [regC3] at hm'
      · rfl
      · simp [regC3] at hm'
      · simp at hcontra)
    (by norm_num [hashC3, buildSpatialHash, regC3, List.filterMap])
    (by norm_num)
    (by simp [regC3])
    rfl rfl
    (by decide)
    (by norm_num [regC3, distSq, ENEMY_STOP_RADIUS])
    (by simp [regC3])

end ClaimC3

section ClaimC2

/-- Claim C2 (confirmed): the simulation tick - spatial-hash rebuild,
then the formation, movement and combat passes at fixed dt - is a pure
function of the registry and generator state in this embedding, so two
runs from equal initial populations and equal generator states produce
identical positions and health values (indeed identical states) after
any number of ticks.  This mirrors the code: the systems hold no state
besides the combat generator and a scratch buffer that is cleared by
every query, iteration orders are fixed, and the generator is consumed
in a fixed per-entity sequence. -/
theorem claim_C2_deterministic_replay {α : Type} [LinearOrderedField α] [FloorRing α]
    (sqrt : α → α) (fd dt : α) (n : Nat) (rg1 rg2 : Registry α × Rng α)
    (hinit : rg1 = rg2) :
    (∀ e, (run sqrt fd dt n rg1).1.pos e = (run sqrt fd dt n rg2).1.pos e ∧
      (run sqrt fd dt n rg1).1.healthD e = (run sqrt fd dt n rg2).1.healthD e) ∧
    run sqrt fd dt n rg1 = run sqrt fd dt n rg2 := by
  subst hinit
  exact ⟨fun e => ⟨rfl, rfl⟩, rfl⟩

/-- Witness for claim_C2_deterministic_replay at a concrete state. -/
theorem claim_C2_witness :
    (regC9, (⟨fun _ => 1/2, 0⟩ : Rng ℚ)) = (regC9, (⟨fun _ => 1/2, 0⟩ : Rng ℚ)) ∧
    ((∀ e, (run (fun _ => 0) 0 (1/60) 3 (regC9, ⟨fun _ => 1/2, 0⟩)).1.pos e =
        (run (fun _ => 0) 0 (1/60) 3 (regC9, ⟨fun _ => 1/2, 0⟩)).1.pos e ∧
      (run (fun _ => 0) 0 (1/60) 3 (regC9, ⟨fun _ => 1/2, 0⟩)).1.healthD e =
        (run (fun _ => 0) 0 (1/60) 3 (regC9, ⟨fun _ => 1/2, 0⟩)).1.healthD e) ∧
    run (fun _ => 0) 0 (1/60) 3 (regC9, ⟨fun _ => 1/2, 0⟩) =
      run (fun _ => 0) 0 (1/60) 3 (regC9, ⟨fun _ => 1/2, 0⟩)) :=
  ⟨rfl, claim_C2_deterministic_replay (fun _ => 0) 0 (1/60) 3
    (regC9, ⟨fun _ => 1/2, 0⟩) (regC9, ⟨fun _ => 1/2, 0⟩) rfl⟩

end ClaimC2

section CombatStepLemmas

variable {α : Type} [LinearOrderedField α] [FloorRing α]

/-- findTarget never reads the InCombat table. -/
lemma findTarget_set_inCombat (r : Registry α) (h : SpatialHash α) (a : Entity)
    (x : Entity → Option (InCombat α)) :
    findTarget { r with inCombat := x } h a = findTarget r h a := rfl

lemma processCombatant_idle {r : Registry α} {g : Rng α} {h : SpatialHash α}
    {fd dt : α} {e : Entity}
    (h0 : r.inCombat e = none) (hft : findTarget r h e = none) :
    processCombatant fd h dt (r, g) e = (r, g, false) := by
  unfold processCombatant
  simp only [h0, hft]

lemma processCombatant_engage {r : Registry α} {g : Rng α} {h : SpatialHash α}
    {fd dt : α} {e t : Entity}
    (h0 : r.inCombat e = none) (hft : findTarget r h e = some t)
    (hlt : ATTACK_COOLDOWN * g.draws g.idx < ATTACK_COOLDOWN) :
    processCombatant fd h dt (r, g) e =
      ({ r with inCombat := upd r.inCombat e (some ⟨t, ATTACK_COOLDOWN * g.draws g.idx⟩) },
        { g with idx := g.idx + 1 }, false) := by
  unfold processCombatant
  simp only [h0, hft, Rng.next]
  rw [if_neg (not_le.mpr hlt)]

lemma upd_upd {β : Type} (f0 : Entity → β) (e : Entity) (v w : β) :
    upd (upd f0 e v) e w = upd f0 e w := by
  funext x
  by_cases hx : x = e <;> simp [upd, hx]

/-- performAttack only advances the generator cursor; the draw stream
itself is never replaced. -/
lemma performAttack_draws (fd : α) (r : Registry α) (g : Rng α) (attacker target : Entity) :
    (performAttack fd r g attacker target).2.draws = g.draws := by
  unfold performAttack
  dsimp only [Rng.next]
  repeat' split
  all_goals rfl

lemma processCombatant_tick_no_attack {r : Registry α} {g : Rng α} {h : SpatialHash α}
    {fd dt : α} {e t : Entity} {ic : InCombat α}
    (h0 : r.inCombat e = some ic) (hft : findTarget r h e = some t)
    (hlt : ic.combatTimer + dt < ATTACK_COOLDOWN) :
    processCombatant fd h dt (r, g) e =
      ({ r with inCombat := upd r.inCombat e (some ⟨t, ic.combatTimer + dt⟩) }, g, false) := by
  unfold processCombatant
  simp only [h0, upd_same, findTarget_set_inCombat, hft]
  rw [if_neg (not_le.mpr hlt)]
  rw [upd_upd]

lemma processCombatant_disengage {r : Registry α} {g : Rng α} {h : SpatialHash α}
    {fd dt : α} {e : Entity} {ic : InCombat α}
    (h0 : r.inCombat e = some ic) (hft : findTarget r h e = none) :
    (processCombatant fd h dt (r, g) e).1.inCombat e = none ∧
    (processCombatant fd h dt (r, g) e).2.2 = false := by
  unfold processCombatant
  simp only [h0, upd_same, findTarget_set_inCombat, hft]
  simp [upd]

lemma processCombatant_attack {r : Registry α} {g : Rng α} {h : SpatialHash α}
    {fd dt : α} {e t : Entity} {ic : InCombat α}
    (h0 : r.inCombat e = some ic) (hft : findTarget r h e = some t)
    (hge : ATTACK_COOLDOWN ≤ ic.combatTimer + dt) :
    ∃ k, (processCombatant fd h dt (r, g) e).1.inCombat e =
        some ⟨t, -(ATTACK_COOLDOWN * g.draws k)⟩ ∧
      (processCombatant fd h dt (r, g) e).2.2 = true := by
  unfold processCombatant
  simp only [h0, upd_same, findTarget_set_inCombat, hft, Rng.next]
  rw [if_pos hge]
  refine ⟨(performAttack fd { r with inCombat := upd (upd r.inCombat e (some { opponent := ic.opponent, combatTimer := ic.combatTimer + dt })) e (some { opponent := t, combatTimer := ic.combatTimer + dt }) } g e t).2.idx, ?_, rfl⟩
  dsimp only
  rw [upd_same, performAttack_draws]

end CombatStepLemmas

section ClaimC4

/-- Claim C4 (confirmed): for a combatant processed by the Combat
System with unit-interval generator draws, (1) an entity not already
InCombat that has a target is attached InCombat with a timer drawn as
ATTACK_COOLDOWN times the next unit draw, lying in [0, ATTACK_COOLDOWN);
(2) an attack is performed exactly when a target exists and the current
combatTimer (the old timer incremented by dt, or the fresh draw for a
newly engaged entity) has reached ATTACK_COOLDOWN; and (3) immediately
after an attack the timer is reset to the negation of ATTACK_COOLDOWN
times a generator draw, a value in (-ATTACK_COOLDOWN, 0]. -/
theorem claim_C4_cooldown_protocol {α : Type} [LinearOrderedField α] [FloorRing α]
    (fd : α) (h : SpatialHash α) (dt : α) (r : Registry α) (g : Rng α) (e : Entity)
    (hdraw : ∀ k, 0 ≤ g.draws k ∧ g.draws k < 1) :
    (∀ t, r.inCombat e = none → findTarget r h e = some t →
      (processCombatant fd h dt (r, g) e).1.inCombat e =
        some ⟨t, ATTACK_COOLDOWN * g.draws g.idx⟩ ∧
      0 ≤ ATTACK_COOLDOWN * g.draws g.idx ∧
      ATTACK_COOLDOWN * g.draws g.idx < ATTACK_COOLDOWN) ∧
    ((processCombatant fd h dt (r, g) e).2.2 = true ↔
      ((∃ t, findTarget r h e = some t) ∧
        ATTACK_COOLDOWN ≤ (match r.inCombat e with
          | some ic => ic.combatTimer + dt
          | none => ATTACK_COOLDOWN * g.draws g.idx))) ∧
    ((processCombatant fd h dt (r, g) e).2.2 = true →
      ∃ t k, (processCombatant fd h dt (r, g) e).1.inCombat e =
          some ⟨t, -(ATTACK_COOLDOWN * g.draws k)⟩ ∧
        -ATTACK_COOLDOWN < -(ATTACK_COOLDOWN * g.draws k) ∧
        -(ATTACK_COOLDOWN * g.draws k) ≤ 0) := by
  have hcool : (0 : α) < ATTACK_COOLDOWN := by norm_num [ATTACK_COOLDOWN]
  have hfresh : ∀ k, 0 ≤ ATTACK_COOLDOWN * g.draws k ∧
      ATTACK_COOLDOWN * g.draws k < ATTACK_COOLDOWN := fun k =>
    ⟨mul_nonneg (le_of_lt hcool) (hdraw k).1, mul_lt_of_lt_one_right hcool (hdraw k).2⟩
  refine ⟨?_, ?_, ?_⟩
  · intro t h0 hft
    rw [processCombatant_engage h0 hft (hfresh g.idx).2]
    exact ⟨upd_same _ _ _, (hfresh g.idx).1, (hfresh g.idx).2⟩
  · rcases h0 : r.inCombat e with _ | ic
    · rcases hft : findTarget r h e with _ | t
      · rw [processCombatant_idle h0 hft]
        simp [hft]
      · rw [processCombatant_engage h0 hft (hfresh g.idx).2]
        simp only [h0]
        constructor
        · intro hcontra
          exact absurd hcontra (by simp)
        · rintro ⟨-, hge⟩
          exact absurd hge (not_le.mpr (hfresh g.idx).2)
    · rcases hft : findTarget r h e with _ | t
      · rw [(processCombatant_disengage h0 hft).2]
        simp [hft]
      · by_cases hge : ATTACK_COOLDOWN ≤ ic.combatTimer + dt
        · obtain ⟨k, hk1, hk2⟩ := processCombatant_attack h0 hft hge
          rw [hk2]
          simp only [h0]
          exact ⟨fun _ => ⟨⟨t, rfl⟩, hge⟩, fun _ => by trivial⟩
        · rw [processCombatant_tick_no_attack h0 hft (not_le.mp hge)]
          simp only [h0]
          constructor
          · intro hcontra
            exact absurd hcontra (by simp)
          · rintro ⟨-, hge'⟩
            exact absurd hge' hge
  · intro hatt
    rcases h0 : r.inCombat e with _ | ic
    · rcases hft : findTarget r h e with _ | t
      · rw [processCombatant_idle h0 hft] at hatt
        exact absurd hatt (by simp)
      · rw [processCombatant_engage h0 hft (hfresh g.idx).2] at hatt
        exact absurd hatt (by simp)
    · rcases hft : findTarget r h e with _ | t
      · rw [(processCombatant_disengage h0 hft).2] at hatt
        exact absurd hatt (by simp)
      · by_cases hge : ATTACK_COOLDOWN ≤ ic.combatTimer + dt
        · obtain ⟨k, hk1, hk2⟩ := processCombatant_attack h0 hft hge
          refine ⟨t, k, hk1, ?_, ?_⟩
          · have := (hfresh k).2
            linarith
          · have := (hfresh k).1
            linarith
        · rw [processCombatant_tick_no_attack h0 hft (not_le.mp hge)] at hatt
          exact absurd hatt (by simp)

/-- Witness for claim_C4_cooldown_protocol at the concrete two-soldier
state with a constant half draw stream. -/
theorem claim_C4_witness :
    (∀ k, (0 : ℚ) ≤ (⟨fun _ => 1/2, 0⟩ : Rng ℚ).draws k ∧
      (⟨fun _ => 1/2, 0⟩ : Rng ℚ).draws k < 1) ∧
    ((∀ t, regC9.inCombat 0 = none → findTarget regC9 hashC9 0 = some t →
      (processCombatant 0 hashC9 (1/60) (regC9, ⟨fun _ => 1/2, 0⟩) 0).1.inCombat 0 =
        some ⟨t, (ATTACK_COOLDOWN : ℚ) * (1/2)⟩ ∧
      (0 : ℚ) ≤ ATTACK_COOLDOWN * (1/2) ∧
      (ATTACK_COOLDOWN : ℚ) * (1/2) < ATTACK_COOLDOWN) ∧
    ((processCombatant 0 hashC9 (1/60) (regC9, ⟨fun _ => 1/2, 0⟩) 0).2.2 = true ↔
      ((∃ t, findTarget regC9 hashC9 0 = some t) ∧
        (ATTACK_COOLDOWN : ℚ) ≤ (match regC9.inCombat 0 with
          | some ic => ic.combatTimer + 1/60
          | none => ATTACK_COOLDOWN * (1/2)))) ∧
    ((processCombatant 0 hashC9 (1/60) (regC9, ⟨fun _ => 1/2, 0⟩) 0).2.2 = true →
      ∃ t k : Entity, (processCombatant 0 hashC9 (1/60) (regC9, ⟨fun _ => 1/2, 0⟩) 0).1.inCombat 0 =
          some ⟨t, -((ATTACK_COOLDOWN : ℚ) * (1/2))⟩ ∧
        -(ATTACK_COOLDOWN : ℚ) < -(ATTACK_COOLDOWN * (1/2)) ∧
        -((ATTACK_COOLDOWN : ℚ) * (1/2)) ≤ 0)) :=
  ⟨fun k => ⟨by norm_num, by norm_num⟩,
   claim_C4_cooldown_protocol 0 hashC9 (1/60) regC9 ⟨fun _ => 1/2, 0⟩ 0
     (fun k => ⟨by norm_num, by norm_num⟩)⟩

end ClaimC4

section ClaimC10

/-- Claim C10 (confirmed): an entity never attacks on the tick on which
its InCombat component is first attached - the randomized initial timer
is ATTACK_COOLDOWN times a unit draw, strictly below ATTACK_COOLDOWN,
and no dt increment is applied to a freshly attached timer, so the
attack condition is false on the entry tick. -/
theorem claim_C10_no_attack_on_engage {α : Type} [LinearOrderedField α] [FloorRing α]
    (fd : α) (h : SpatialHash α) (dt : α) (r : Registry α) (g : Rng α) (e : Entity)
    (hdraw : ∀ k, 0 ≤ g.draws k ∧ g.draws k < 1)
    (h0 : r.inCombat e = none) :
    (processCombatant fd h dt (r, g) e).2.2 = false := by
  have hcool : (0 : α) < ATTACK_COOLDOWN := by norm_num [ATTACK_COOLDOWN]
  rcases hft : findTarget r h e with _ | t
  · rw [processCombatant_idle h0 hft]
  · rw [processCombatant_engage h0 hft
      (mul_lt_of_lt_one_right hcool (hdraw g.idx).2)]

/-- Witness for claim_C10_no_attack_on_engage at the concrete
two-soldier state. -/
theorem claim_C10_witness :
    (∀ k, (0 : ℚ) ≤ (⟨fun _ => 1/2, 0⟩ : Rng ℚ).draws k ∧
      (⟨fun _ => 1/2, 0⟩ : Rng ℚ).draws k < 1) ∧
    regC9.inCombat 0 = none ∧
    (processCombatant 0 hashC9 (1/60) (regC9, ⟨fun _ => 1/2, 0⟩) 0).2.2 = false :=
  ⟨fun k => ⟨by norm_num, by norm_num⟩, rfl,
   claim_C10_no_attack_on_engage 0 hashC9 (1/60) regC9 ⟨fun _ => 1/2, 0⟩ 0
     (fun k => ⟨by norm_num, by norm_num⟩) rfl⟩

end ClaimC10

section ClaimC5

variable {α : Type} [LinearOrderedField α] [FloorRing α]

lemma performAttack_miss_eq {fd : α} {r : Registry α} {g : Rng α} {attacker target : Entity}
    {s : Stats α}
    (hvalid : r.valid target = true) (hdead : r.dead target = false)
    (hstats : r.stats target = some s) (hmiss : g.draws g.idx < MISS_CHANCE) :
    performAttack fd r g attacker target =
      ({ r with flash := upd r.flash attacker (some ⟨FlashType.Attack, fd⟩) },
        { g with idx := g.idx + 1 }) := by
  unfold performAttack
  simp only [hvalid, hdead, hstats, Rng.next, Bool.not_true]
  rw [if_neg (by simp), if_neg (by simp), if_pos hmiss]

lemma performAttack_hit_stats {fd : α} {r : Registry α} {g : Rng α}
    {attacker target : Entity} {s : Stats α}
    (hvalid : r.valid target = true) (hdead : r.dead target = false)
    (hstats : r.stats target = some s) (hhit : ¬(g.draws g.idx < MISS_CHANCE)) :
    (performAttack fd r g attacker target).1.stats target =
      some { s with health := max 0 (s.health -
        max 1 ((if g.draws (g.idx + 1) < HEAVY_HIT_CHANCE then HEAVY_DAMAGE else LIGHT_DAMAGE)
          - s.defense * (1 / 2))) } := by
  unfold performAttack
  simp only [hvalid, hdead, hstats, Rng.next, Bool.not_true]
  rw [if_neg (by simp), if_neg (by simp), if_neg hhit]
  dsimp only
  unfold checkDeath
  simp only [upd_same]
  rcases le_or_lt (s.health -
      max 1 ((if g.draws (g.idx + 1) < HEAVY_HIT_CHANCE then HEAVY_DAMAGE else LIGHT_DAMAGE)
        - s.defense * (1 / 2))) 0 with hle | hgt
  · rw [if_pos hle]
    dsimp only
    rw [upd_upd, upd_same]
    rw [max_eq_left hle]
  · rw [if_neg (not_le.mpr hgt)]
    dsimp only
    rw [upd_same]
    rw [max_eq_right (le_of_lt hgt)]

/-- Claim C5 (corrected): for an attack on a valid, alive target with
Stats by a different attacker: if the first unit draw is below
MISS_CHANCE the damage is zero and every component of the target is
left entirely unchanged (one generator draw is consumed); otherwise the
damage is HEAVY_DAMAGE exactly when the second draw is below
HEAVY_HIT_CHANCE and LIGHT_DAMAGE otherwise, and the target's health
becomes max(0, health - max(1, damage - defense/2)) - the subtraction
is clamped at zero by the death check, so health does not always
decrease by exactly the computed amount (claim_C5_counterexample). -/
theorem claim_C5_attack_resolution_amended {α : Type} [LinearOrderedField α] [FloorRing α]
    (fd : α) (r : Registry α) (g : Rng α) (attacker target : Entity) (s : Stats α)
    (hne : attacker ≠ target)
    (hvalid : r.valid target = true) (hdead : r.dead target = false)
    (hstats : r.stats target = some s) :
    (g.draws g.idx < MISS_CHANCE →
      (performAttack fd r g attacker target).1.stats target = r.stats target ∧
      (performAttack fd r g attacker target).1.flash target = r.flash target ∧
      (performAttack fd r g attacker target).1.pos target = r.pos target ∧
      (performAttack fd r g attacker target).1.vel target = r.vel target ∧
      (performAttack fd r g attacker target).1.team target = r.team target ∧
      (performAttack fd r g attacker target).1.inCombat target = r.inCombat target ∧
      (performAttack fd r g attacker target).1.routing target = r.routing target ∧
      (performAttack fd r g attacker target).1.dead target = r.dead target ∧
      (performAttack fd r g attacker target).1.pursuing target = r.pursuing target ∧
      (performAttack fd r g attacker target).2 = { g with idx := g.idx + 1 }) ∧
    (¬(g.draws g.idx < MISS_CHANCE) →
      (performAttack fd r g attacker target).1.stats target =
        some { s with health := max 0 (s.health -
          max 1 ((if g.draws (g.idx + 1) < HEAVY_HIT_CHANCE then HEAVY_DAMAGE
            else LIGHT_DAMAGE) - s.defense * (1 / 2))) }) := by
  constructor
  · intro hmiss
    rw [performAttack_miss_eq hvalid hdead hstats hmiss]
    exact ⟨rfl, upd_ne _ _ (Ne.symm hne), rfl, rfl, rfl, rfl, rfl, rfl, rfl, rfl⟩
  · intro hhit
    exact performAttack_hit_stats hvalid hdead hstats hhit

/-- A concrete overkill scenario: target 1 has 10 health and 0 defense;
the draw stream gives a non-miss (0.5) and then a heavy hit (0.1). -/
def regC5 : Registry ℚ where
  entities := [0, 1]
  pos := fun e => if e = 0 then some ⟨0, 0⟩ else if e = 1 then some ⟨1, 0⟩ else none
  vel := fun _ => some ⟨0, 0⟩
  team := fun e => if e = 0 then some TeamV.Red else if e = 1 then some TeamV.Blue else none
  stats := fun e =>
    if e = 0 then some ⟨100, 100, 100, 100, 10, 0, 5⟩
    else if e = 1 then some ⟨10, 100, 100, 100, 10, 0, 5⟩ else none
  unit := fun _ => some UnitTypeT.HeavyInfantry
  formation := fun _ => none
  member := fun _ => none
  mtarget := fun _ => none
  inCombat := fun _ => none
  routing := fun _ => false
  dead := fun _ => false
  pursuing := fun _ => none
  flash := fun _ => none

/-- Counterexample to claim C5 as stated: a heavy hit (damage 35) on
the 10-health, 0-defense target drops its health to 0, a decrease of
10, not of max(1, 35 - 0) = 35: the death clamp makes the exact-
decrease wording false. -/
theorem claim_C5_counterexample :
    regC5.healthD 1 -
        (performAttack 0 regC5 ⟨fun k => if k = 0 then 1/2 else 1/10, 0⟩ 0 1).1.healthD 1 = 10 ∧
    regC5.healthD 1 = 10 ∧
    max 1 ((HEAVY_DAMAGE : ℚ) - 0 * (1 / 2)) = 35 ∧
    (10 : ℚ) ≠ 35 := by
  refine ⟨?_, by norm_num [regC5, Registry.healthD], by norm_num [HEAVY_DAMAGE], by norm_num⟩
  norm_num [performAttack, checkDeath, regC5, Registry.healthD, Registry.valid, Rng.next,
    upd, MISS_CHANCE, HEAVY_HIT_CHANCE, HEAVY_DAMAGE]

/-- Witness for claim_C5_attack_resolution_amended at the overkill
scenario. -/
theorem claim_C5_witness :
    ((1 : ℚ)/2 < MISS_CHANCE →
      (performAttack 0 regC5 ⟨fun k => if k = 0 then 1/2 else 1/10, 0⟩ 0 1).1.stats 1 =
        regC5.stats 1 ∧
      (performAttack 0 regC5 ⟨fun k => if k = 0 then 1/2 else 1/10, 0⟩ 0 1).1.flash 1 =
        regC5.flash 1 ∧
      (performAttack 0 regC5 ⟨fun k => if k = 0 then 1/2 else 1/10, 0⟩ 0 1).1.pos 1 =
        regC5.pos 1 ∧
      (performAttack 0 regC5 ⟨fun k => if k = 0 then 1/2 else 1/10, 0⟩ 0 1).1.vel 1 =
        regC5.vel 1 ∧
      (performAttack 0 regC5 ⟨fun k => if k = 0 then 1/2 else 1/10, 0⟩ 0 1).1.team 1 =
        regC5.team 1 ∧
      (performAttack 0 regC5 ⟨fun k => if k = 0 then 1/2 else 1/10, 0⟩ 0 1).1.inCombat 1 =
        regC5.inCombat 1 ∧
      (performAttack 0 regC5 ⟨fun k => if k = 0 then 1/2 else 1/10, 0⟩ 0 1).1.routing 1 =
        regC5.routing 1 ∧
      (performAttack 0 regC5 ⟨fun k => if k = 0 then 1/2 else 1/10, 0⟩ 0 1).1.dead 1 =
        regC5.dead 1 ∧
      (performAttack 0 regC5 ⟨fun k => if k = 0 then 1/2 else 1/10, 0⟩ 0 1).1.pursuing 1 =
        regC5.pursuing 1 ∧
      (performAttack 0 regC5 ⟨fun k => if k = 0 then 1/2 else 1/10, 0⟩ 0 1).2 =
        { (⟨fun k => if k = 0 then 1/2 else 1/10, 0⟩ : Rng ℚ) with idx := 0 + 1 }) ∧
    (¬((1 : ℚ)/2 < MISS_CHANCE) →
      (performAttack 0 regC5 ⟨fun k => if k = 0 then 1/2 else 1/10, 0⟩ 0 1).1.stats 1 =
        some ⟨max 0 ((10 : ℚ) - max 1 ((if (1 : ℚ)/10 < HEAVY_HIT_CHANCE then HEAVY_DAMAGE else LIGHT_DAMAGE) - 0 * (1 / 2))), 100, 100, 100, 10, 0, 5⟩) :=
  claim_C5_attack_resolution_amended 0 regC5 ⟨fun k => if k = 0 then 1/2 else 1/10, 0⟩ 0 1
    ⟨10, 100, 100, 100, 10, 0, 5⟩ (by norm_num) (by norm_num [regC5, Registry.valid]) rfl rfl

end ClaimC5

section DeadFreezeLemmas

variable {α : Type} [LinearOrderedField α] [FloorRing α]

/-- The flash-decay loop writes only FlashEffect; the combat-relevant
tables it leaves alone, one projection per lemma. -/
lemma decayFlash_stats (dt : α) (r : Registry α) (e : Entity) :
    (decayFlash dt r e).stats = r.stats := by
  unfold decayFlash
  dsimp only
  repeat' split
  all_goals rfl

lemma decayFlash_inCombat (dt : α) (r : Registry α) (e : Entity) :
    (decayFlash dt r e).inCombat = r.inCombat := by
  unfold decayFlash
  dsimp only
  repeat' split
  all_goals rfl

lemma decayFlash_routing (dt : α) (r : Registry α) (e : Entity) :
    (decayFlash dt r e).routing = r.routing := by
  unfold decayFlash
  dsimp only
  repeat' split
  all_goals rfl

lemma decayFlash_dead (dt : α) (r : Registry α) (e : Entity) :
    (decayFlash dt r e).dead = r.dead := by
  unfold decayFlash
  dsimp only
  repeat' split
  all_goals rfl

lemma decayFlash_pursuing (dt : α) (r : Registry α) (e : Entity) :
    (decayFlash dt r e).pursuing = r.pursuing := by
  unfold decayFlash
  dsimp only
  repeat' split
  all_goals rfl

/-- checkDeath touches only the entity it is called on: at any other
entity the five tables it writes read back unchanged. -/
lemma checkDeath_stats_ne {r : Registry α} {t x : Entity} (hxt : x ≠ t) :
    (checkDeath r t).stats x = r.stats x := by
  unfold checkDeath
  repeat' split
  all_goals simp [upd_ne _ _ hxt]

lemma checkDeath_dead_ne {r : Registry α} {t x : Entity} (hxt : x ≠ t) :
    (checkDeath r t).dead x = r.dead x := by
  unfold checkDeath
  repeat' split
  all_goals simp [upd_ne _ _ hxt]

lemma checkDeath_inCombat_ne {r : Registry α} {t x : Entity} (hxt : x ≠ t) :
    (checkDeath r t).inCombat x = r.inCombat x := by
  unfold checkDeath
  repeat' split
  all_goals simp [upd_ne _ _ hxt]

lemma checkDeath_routing_ne {r : Registry α} {t x : Entity} (hxt : x ≠ t) :
    (checkDeath r t).routing x = r.routing x := by
  unfold checkDeath
  repeat' split
  all_goals simp [upd_ne _ _ hxt]

lemma checkDeath_pursuing_ne {r : Registry α} {t x : Entity} (hxt : x ≠ t) :
    (checkDeath r t).pursuing x = r.pursuing x := by
  unfold checkDeath
  repeat' split
  all_goals simp [upd_ne _ _ hxt]

/-- performAttack leaves Stats, Dead, InCombat, Routing and Pursuing
unchanged at every entity other than the target, and also at the
target itself when the target is already Dead (the early return of
combat_system.cpp line 111). -/
lemma performAttack_at_other (fd : α) (r : Registry α) (g : Rng α) (a t x : Entity)
    (hx : r.dead x = true ∨ x ≠ t) :
    (performAttack fd r g a t).1.stats x = r.stats x ∧
    (performAttack fd r g a t).1.dead x = r.dead x ∧
    (performAttack fd r g a t).1.inCombat x = r.inCombat x ∧
    (performAttack fd r g a t).1.routing x = r.routing x ∧
    (performAttack fd r g a t).1.pursuing x = r.pursuing x := by
  by_cases hxt : x = t
  · subst hxt
    rcases hx with hdead | hne
    · unfold performAttack
      by_cases hv : r.valid x = true
      · rw [if_neg (by simp [hv]), if_pos hdead]
        exact ⟨rfl, rfl, rfl, rfl, rfl⟩
      · rw [if_pos (by simp [hv])]
        exact ⟨rfl, rfl, rfl, rfl, rfl⟩
    · exact absurd rfl hne
  · unfold performAttack
    dsimp only
    repeat' split
    all_goals
      exact ⟨by simp [checkDeath_stats_ne hxt, upd_ne _ _ hxt],
        by simp [checkDeath_dead_ne hxt, upd_ne _ _ hxt],
        by simp [checkDeath_inCombat_ne hxt, upd_ne _ _ hxt],
        by simp [checkDeath_routing_ne hxt, upd_ne _ _ hxt],
        by simp [checkDeath_pursuing_ne hxt, upd_ne _ _ hxt]⟩

end DeadFreezeLemmas


section HealthLemmas

variable {α : Type} [LinearOrderedField α] [FloorRing α]

/-- Health reads only the Stats table. -/
lemma healthD_congr {r1 r2 : Registry α} {x : Entity} (h : r1.stats x = r2.stats x) :
    r1.healthD x = r2.healthD x := by
  unfold Registry.healthD
  rw [h]

/-- Pointwise health evolution across one operation: from a nonnegative
health, the entity's health can only stay or drop, and it stays
nonnegative.  This is the per-step form of the spec's health
monotonicity property. -/
def healthStep (x : Entity) (r1 r2 : Registry α) : Prop :=
  0 ≤ r1.healthD x → r2.healthD x ≤ r1.healthD x ∧ 0 ≤ r2.healthD x

lemma healthStep_refl (x : Entity) (r : Registry α) : healthStep x r r :=
  fun hnn => ⟨le_refl _, hnn⟩

lemma healthStep_trans {x : Entity} {r1 r2 r3 : Registry α}
    (h12 : healthStep x r1 r2) (h23 : healthStep x r2 r3) : healthStep x r1 r3 := by
  intro hnn
  obtain ⟨hle, hnn2⟩ := h12 hnn
  obtain ⟨hle2, hnn3⟩ := h23 hnn2
  exact ⟨hle2.trans hle, hnn3⟩

lemma healthStep_eq_left {x : Entity} {r1 r1' r2 : Registry α}
    (h : r1.healthD x = r1'.healthD x) (hs : healthStep x r1 r2) :
    healthStep x r1' r2 := by
  intro hnn
  rw [← h] at hnn
  obtain ⟨hle, hnn2⟩ := hs hnn
  exact ⟨h ▸ hle, hnn2⟩

lemma healthStep_eq_right {x : Entity} {r1 r2 r2' : Registry α}
    (h : r2.healthD x = r2'.healthD x) (hs : healthStep x r1 r2) :
    healthStep x r1 r2' := by
  intro hnn
  obtain ⟨hle, hnn2⟩ := hs hnn
  exact ⟨h ▸ hle, h ▸ hnn2⟩

lemma healthStep_eq_both {x : Entity} {r1 r2 r1' r2' : Registry α}
    (hs : healthStep x r1 r2) (h2 : r2.healthD x = r2'.healthD x)
    (h1 : r1.healthD x = r1'.healthD x) : healthStep x r1' r2' :=
  healthStep_eq_left h1 (healthStep_eq_right h2 hs)

/-- What performAttack can do to the target's Stats entry: either leave
it alone (invalid, dead or Stats-less target, or a miss) or, on a hit,
clamp-subtract at least one point of damage. -/
lemma performAttack_target_stats_cases (fd : α) (r : Registry α) (g : Rng α)
    (a t : Entity) :
    (performAttack fd r g a t).1.stats t = r.stats t ∨
    (∃ s : Stats α, r.stats t = some s ∧
      (performAttack fd r g a t).1.stats t =
        some { s with health := max 0 (s.health -
          max 1 ((if g.draws (g.idx + 1) < HEAVY_HIT_CHANCE then HEAVY_DAMAGE
            else LIGHT_DAMAGE) - s.defense * (1 / 2))) }) := by
  rcases hv : r.valid t with _ | _
  · left
    unfold performAttack
    rw [hv]
    simp
  · rcases hd : r.dead t with _ | _
    · rcases hstats : r.stats t with _ | s
      · left
        unfold performAttack
        rw [hv, hd]
        simp [hstats]
      · by_cases hmiss : g.draws g.idx < MISS_CHANCE
        · left
          rw [performAttack_miss_eq hv hd hstats hmiss]
          exact hstats
        · right
          exact ⟨s, rfl, performAttack_hit_stats hv hd hstats hmiss⟩
    · left
      exact (performAttack_at_other fd r g a t t (Or.inl hd)).1

/-- Each performAttack is a healthStep at every entity: the target's
health can only drop (and is clamped at zero by checkDeath), nobody
else's Stats are touched. -/
lemma performAttack_healthStep (fd : α) (r : Registry α) (g : Rng α) (a t x : Entity) :
    healthStep x r (performAttack fd r g a t).1 := by
  by_cases hxt : x = t
  · subst hxt
    rcases performAttack_target_stats_cases fd r g a x with hsame | ⟨s, hs, hnew⟩
    · exact healthStep_eq_right (healthD_congr hsame.symm) (healthStep_refl x r)
    · intro hnn
      have hnn' : 0 ≤ s.health := by
        unfold Registry.healthD at hnn
        rw [hs] at hnn
        exact hnn
      unfold Registry.healthD
      rw [hnew, hs]
      dsimp only
      constructor
      · refine max_le hnn' ?_
        have h1 : (1 : α) ≤ max 1 ((if g.draws (g.idx + 1) < HEAVY_HIT_CHANCE
            then HEAVY_DAMAGE else LIGHT_DAMAGE) - s.defense * (1 / 2)) := le_max_left 1 _
        linarith
      · exact le_max_left 0 _
  · exact healthStep_eq_right
      (healthD_congr ((performAttack_at_other fd r g a t x (Or.inr hxt)).1).symm)
      (healthStep_refl x r)

end HealthLemmas


section HealthFoldLemmas

variable {α : Type} [LinearOrderedField α] [FloorRing α]

/-- The per-combatant step is a healthStep at every entity: only its
embedded performAttack touches Stats. -/
lemma processCombatant_healthStep (fd : α) (h : SpatialHash α) (dt : α)
    (rg : Registry α × Rng α) (e x : Entity) :
    healthStep x rg.1 (processCombatant fd h dt rg e).1 := by
  unfold processCombatant
  dsimp only
  repeat' split
  all_goals first
    | exact healthStep_refl x rg.1
    | exact healthStep_eq_right rfl (healthStep_refl x rg.1)
    | exact healthStep_eq_both (performAttack_healthStep fd _ _ e _ x) rfl rfl

/-- A formation pass leaves the Stats, Dead, InCombat, Routing and
Pursuing tables untouched. -/
lemma formationUpdate_combat_tables (sqrt : α → α) (h : SpatialHash α) (dt : α)
    (r : Registry α) :
    (formationUpdate sqrt h dt r).stats = r.stats ∧
    (formationUpdate sqrt h dt r).dead = r.dead ∧
    (formationUpdate sqrt h dt r).inCombat = r.inCombat ∧
    (formationUpdate sqrt h dt r).routing = r.routing ∧
    (formationUpdate sqrt h dt r).pursuing = r.pursuing := by
  unfold formationUpdate
  refine @foldl_preserves (Registry α)
    (fun r' => r'.stats = r.stats ∧ r'.dead = r.dead ∧ r'.inCombat = r.inCombat ∧
      r'.routing = r.routing ∧ r'.pursuing = r.pursuing) _ _ _
    (fun r' e _ hP => ?_) ⟨rfl, rfl, rfl, rfl, rfl⟩
  split
  · obtain ⟨f1, f2, f3, f4, f5, f6, f7, f8, f9, f10, f11, f12, f13, f14, f15⟩ :=
      formationStep_frame sqrt h dt r' e
    exact ⟨f4.trans hP.1, f10.trans hP.2.1, f8.trans hP.2.2.1, f9.trans hP.2.2.2.1,
      f11.trans hP.2.2.2.2⟩
  · exact hP

/-- A whole combat pass is a healthStep at every entity. -/
lemma combatUpdate_healthStep (fd : α) (h : SpatialHash α) (dt : α) (r : Registry α)
    (g : Rng α) (x : Entity) :
    healthStep x r (combatUpdate fd h dt r g).1 := by
  unfold combatUpdate
  dsimp only
  have hflash : (r.entities.foldl (decayFlash dt) r).stats = r.stats :=
    @foldl_preserves (Registry α) (fun r' => r'.stats = r.stats) (decayFlash dt)
      r.entities r (fun r' e _ hP => (decayFlash_stats dt r' e).trans hP) rfl
  refine @foldl_preserves (Registry α × Rng α) (fun rg' => healthStep x r rg'.1) _ _ _
    (fun rg' e _ hP => ?_)
    (healthStep_eq_right (healthD_congr (congrFun hflash.symm x)) (healthStep_refl x r))
  split
  · exact healthStep_trans hP (processCombatant_healthStep fd h dt rg' e x)
  · exact hP

/-- One whole tick is a healthStep at every entity: formation and
movement never write Stats, and combat can only lower health. -/
lemma tick_healthStep (sqrt : α → α) (fd dt : α) (rg : Registry α × Rng α) (x : Entity) :
    healthStep x rg.1 (tick sqrt fd dt rg).1 := by
  unfold tick
  dsimp only
  have h1 := (formationUpdate_combat_tables sqrt
    (buildSpatialHash rg.1 (SPATIAL_HASH_CELL_SIZE : α)) dt rg.1).1
  have h2 := (movementUpdate_frame sqrt
    (buildSpatialHash rg.1 (SPATIAL_HASH_CELL_SIZE : α)) dt
    (formationUpdate sqrt (buildSpatialHash rg.1 (SPATIAL_HASH_CELL_SIZE : α)) dt rg.1)).2.2.1
  exact healthStep_eq_left (healthD_congr (congrFun (h2.trans h1) x))
    (combatUpdate_healthStep fd _ dt _ rg.2 x)

/-- healthStep propagated from the start of a run to any later tick. -/
lemma run_healthStep (sqrt : α → α) (fd dt : α) (rg : Registry α × Rng α) (x : Entity) :
    ∀ n : Nat, healthStep x rg.1 (run sqrt fd dt n rg).1 := by
  intro n
  induction n with
  | zero => exact healthStep_refl x rg.1
  | succ n ih =>
    have hrw : run sqrt fd dt (n + 1) rg = tick sqrt fd dt (run sqrt fd dt n rg) := by
      unfold run
      exact Function.iterate_succ_apply' (tick sqrt fd dt) n rg
    rw [hrw]
    exact healthStep_trans ih (tick_healthStep sqrt fd dt (run sqrt fd dt n rg) x)

end HealthFoldLemmas


section ClaimC8

/-- Claim C8: for every entity with nonnegative health, health never
increases across a tick, and for every pair of consecutive ticks of a
run health(t+1) ≤ health(t), and health stays nonnegative: the only
health mutations are performAttack's subtraction of at-least-1 damage
and checkDeath's clamp of an already non-positive value to 0. -/
theorem claim_C8_health_monotone {α : Type} [LinearOrderedField α] [FloorRing α]
    (sqrt : α → α) (fd dt : α) (rg : Registry α × Rng α) (x : Entity) (n : Nat)
    (hnn : 0 ≤ rg.1.healthD x) :
    ((tick sqrt fd dt rg).1.healthD x ≤ rg.1.healthD x ∧
      0 ≤ (tick sqrt fd dt rg).1.healthD x) ∧
    ((run sqrt fd dt (n + 1) rg).1.healthD x ≤ (run sqrt fd dt n rg).1.healthD x ∧
      0 ≤ (run sqrt fd dt (n + 1) rg).1.healthD x) := by
  refine ⟨tick_healthStep sqrt fd dt rg x hnn, ?_⟩
  have hn := run_healthStep sqrt fd dt rg x n hnn
  have hrw : run sqrt fd dt (n + 1) rg = tick sqrt fd dt (run sqrt fd dt n rg) := by
    unfold run
    exact Function.iterate_succ_apply' (tick sqrt fd dt) n rg
  rw [hrw]
  exact tick_healthStep sqrt fd dt (run sqrt fd dt n rg) x hn.2

/-- Witness for claim_C8_health_monotone: the overkill scenario's
target (10 health) at the first tick pair. -/
theorem claim_C8_witness :
    ((tick (fun _ => (0 : ℚ)) 0 (1/60) (regC5, ⟨fun _ => 1/2, 0⟩)).1.healthD 1 ≤
        regC5.healthD 1 ∧
      0 ≤ (tick (fun _ => (0 : ℚ)) 0 (1/60) (regC5, ⟨fun _ => 1/2, 0⟩)).1.healthD 1) ∧
    ((run (fun _ => (0 : ℚ)) 0 (1/60) 1 (regC5, ⟨fun _ => 1/2, 0⟩)).1.healthD 1 ≤
        (run (fun _ => (0 : ℚ)) 0 (1/60) 0 (regC5, ⟨fun _ => 1/2, 0⟩)).1.healthD 1 ∧
      0 ≤ (run (fun _ => (0 : ℚ)) 0 (1/60) 1 (regC5, ⟨fun _ => 1/2, 0⟩)).1.healthD 1) :=
  claim_C8_health_monotone (fun _ => (0 : ℚ)) 0 (1/60) (regC5, ⟨fun _ => 1/2, 0⟩) 1 0
    (by norm_num [regC5, Registry.healthD])

end ClaimC8


section DeadFreezeFold

variable {α : Type} [LinearOrderedField α] [FloorRing α]

/-- Single-equation forms of performAttack_at_other, shaped for simp. -/
lemma performAttack_frozen_stats (fd : α) (r : Registry α) (g : Rng α) (a t x : Entity)
    (hx : r.dead x = true ∨ x ≠ t) :
    (performAttack fd r g a t).1.stats x = r.stats x :=
  (performAttack_at_other fd r g a t x hx).1

lemma performAttack_frozen_dead (fd : α) (r : Registry α) (g : Rng α) (a t x : Entity)
    (hx : r.dead x = true ∨ x ≠ t) :
    (performAttack fd r g a t).1.dead x = r.dead x :=
  (performAttack_at_other fd r g a t x hx).2.1

lemma performAttack_frozen_inCombat (fd : α) (r : Registry α) (g : Rng α) (a t x : Entity)
    (hx : r.dead x = true ∨ x ≠ t) :
    (performAttack fd r g a t).1.inCombat x = r.inCombat x :=
  (performAttack_at_other fd r g a t x hx).2.2.1

lemma performAttack_frozen_routing (fd : α) (r : Registry α) (g : Rng α) (a t x : Entity)
    (hx : r.dead x = true ∨ x ≠ t) :
    (performAttack fd r g a t).1.routing x = r.routing x :=
  (performAttack_at_other fd r g a t x hx).2.2.2.1

lemma performAttack_frozen_pursuing (fd : α) (r : Registry α) (g : Rng α) (a t x : Entity)
    (hx : r.dead x = true ∨ x ≠ t) :
    (performAttack fd r g a t).1.pursuing x = r.pursuing x :=
  (performAttack_at_other fd r g a t x hx).2.2.2.2

/-- Agreement at one entity on the five tables checkDeath writes:
Stats, Dead, InCombat, Routing and Pursuing. -/
def frozenAt (x : Entity) (r1 r2 : Registry α) : Prop :=
  r2.stats x = r1.stats x ∧ r2.dead x = r1.dead x ∧ r2.inCombat x = r1.inCombat x ∧
  r2.routing x = r1.routing x ∧ r2.pursuing x = r1.pursuing x

lemma frozenAt_refl (x : Entity) (r : Registry α) : frozenAt x r r :=
  ⟨rfl, rfl, rfl, rfl, rfl⟩

lemma frozenAt_trans {x : Entity} {r1 r2 r3 : Registry α}
    (h12 : frozenAt x r1 r2) (h23 : frozenAt x r2 r3) : frozenAt x r1 r3 :=
  ⟨h23.1.trans h12.1, h23.2.1.trans h12.2.1, h23.2.2.1.trans h12.2.2.1,
    h23.2.2.2.1.trans h12.2.2.2.1, h23.2.2.2.2.trans h12.2.2.2.2⟩

/-- A dead entity is untouched by another entity's combatant step: all
InCombat writes go to the iterated entity, and performAttack returns
early on a dead target. -/
lemma processCombatant_dead_frozen (fd : α) (h : SpatialHash α) (dt : α)
    (rg : Registry α × Rng α) (e x : Entity) (hx : rg.1.dead x = true) (hne : x ≠ e) :
    frozenAt x rg.1 (processCombatant fd h dt rg e).1 := by
  unfold processCombatant
  dsimp only
  repeat' split
  all_goals
    refine ⟨?_, ?_, ?_, ?_, ?_⟩ <;>
      simp [performAttack_frozen_stats, performAttack_frozen_dead,
        performAttack_frozen_inCombat, performAttack_frozen_routing,
        performAttack_frozen_pursuing, upd, hne, hx]

/-- A dead entity is untouched by a whole combat pass: the combatant
view's Dead exclusion skips it, and everyone else's step leaves it
alone. -/
lemma combatUpdate_dead_frozen (fd : α) (h : SpatialHash α) (dt : α) (r : Registry α)
    (g : Rng α) (x : Entity) (hx : r.dead x = true) :
    frozenAt x r (combatUpdate fd h dt r g).1 := by
  unfold combatUpdate
  dsimp only
  have hflash : frozenAt x r (r.entities.foldl (decayFlash dt) r) :=
    @foldl_preserves (Registry α) (frozenAt x r) (decayFlash dt) r.entities r
      (fun r' e _ hP => frozenAt_trans hP
        ⟨congrFun (decayFlash_stats dt r' e) x, congrFun (decayFlash_dead dt r' e) x,
         congrFun (decayFlash_inCombat dt r' e) x, congrFun (decayFlash_routing dt r' e) x,
         congrFun (decayFlash_pursuing dt r' e) x⟩)
      (frozenAt_refl x r)
  refine @foldl_preserves (Registry α × Rng α) (fun rg' => frozenAt x r rg'.1) _ _ _
    (fun rg' e _ hP => ?_) hflash
  split
  · rename_i hfil
    by_cases hxe : x = e
    · exfalso
      subst hxe
      have hd : rg'.1.dead x = true := hP.2.1.trans hx
      unfold combatantFilter at hfil
      simp [hd] at hfil
    · exact frozenAt_trans hP
        (processCombatant_dead_frozen fd h dt rg' e x (hP.2.1.trans hx) hxe)
  · exact hP

/-- A dead entity is untouched by one whole tick on the five frozen
tables: formation and movement never write them, and combat skips the
Dead. -/
lemma tick_dead_frozen (sqrt : α → α) (fd dt : α) (rg : Registry α × Rng α) (x : Entity)
    (hx : rg.1.dead x = true) :
    frozenAt x rg.1 (tick sqrt fd dt rg).1 := by
  unfold tick
  dsimp only
  obtain ⟨fs, fdd, fic, frt, fpu⟩ := formationUpdate_combat_tables sqrt
    (buildSpatialHash rg.1 (SPATIAL_HASH_CELL_SIZE : α)) dt rg.1
  obtain ⟨m1, m2, m3, m4, m5, m6, m7, m8, m9, m10, m11, m12⟩ := movementUpdate_frame sqrt
    (buildSpatialHash rg.1 (SPATIAL_HASH_CELL_SIZE : α)) dt
    (formationUpdate sqrt (buildSpatialHash rg.1 (SPATIAL_HASH_CELL_SIZE : α)) dt rg.1)
  have hfm : frozenAt x rg.1 (movementUpdate sqrt
      (buildSpatialHash rg.1 (SPATIAL_HASH_CELL_SIZE : α)) dt
      (formationUpdate sqrt (buildSpatialHash rg.1 (SPATIAL_HASH_CELL_SIZE : α)) dt rg.1)) :=
    ⟨congrFun (m3.trans fs) x, congrFun (m10.trans fdd) x, congrFun (m8.trans fic) x,
      congrFun (m9.trans frt) x, congrFun (m11.trans fpu) x⟩
  exact frozenAt_trans hfm (combatUpdate_dead_frozen fd _ dt _ rg.2 x (hfm.2.1.trans hx))

/-- The freeze propagated along a whole run. -/
lemma run_dead_frozen (sqrt : α → α) (fd dt : α) (rg : Registry α × Rng α) (x : Entity)
    (hx : rg.1.dead x = true) :
    ∀ n : Nat, frozenAt x rg.1 (run sqrt fd dt n rg).1 := by
  intro n
  induction n with
  | zero => exact frozenAt_refl x rg.1
  | succ n ih =>
    have hrw : run sqrt fd dt (n + 1) rg = tick sqrt fd dt (run sqrt fd dt n rg) := by
      unfold run
      exact Function.iterate_succ_apply' (tick sqrt fd dt) n rg
    rw [hrw]
    exact frozenAt_trans ih
      (tick_dead_frozen sqrt fd dt (run sqrt fd dt n rg) x (ih.2.1.trans hx))

/-- CombatSystem::checkDeath's postcondition on an entity whose health
has reached 0 or below: health clamped to exactly 0, Dead attached,
InCombat, Routing and Pursuing removed, all in the one operation. -/
lemma checkDeath_post (r : Registry α) (e : Entity) (s : Stats α)
    (hstats : r.stats e = some s) (hle : s.health ≤ 0) :
    (checkDeath r e).stats e = some { s with health := 0 } ∧
    (checkDeath r e).dead e = true ∧
    (checkDeath r e).inCombat e = none ∧
    (checkDeath r e).routing e = false ∧
    (checkDeath r e).pursuing e = none := by
  unfold checkDeath
  simp only [hstats]
  rw [if_pos hle]
  exact ⟨upd_same _ _ _, upd_same _ _ _, upd_same _ _ _, upd_same _ _ _, upd_same _ _ _⟩

end DeadFreezeFold


section ClaimC6

/-- Claim C6: when an entity's health reaches 0 or below, checkDeath in
that same operation sets health to exactly 0, attaches Dead and removes
InCombat, Routing and Pursuing; and once Dead is attached, every
subsequent tick of the run leaves its Dead tag, Stats (hence health),
InCombat, Routing and Pursuing exactly as they were: no system ever
re-attaches the transient combat states or changes its health again. -/
theorem claim_C6_death_idempotence {α : Type} [LinearOrderedField α] [FloorRing α]
    (sqrt : α → α) (fd dt : α) (r : Registry α) (rg : Registry α × Rng α)
    (e x : Entity) (s : Stats α)
    (hstats : r.stats e = some s) (hle : s.health ≤ 0)
    (hx : rg.1.dead x = true) :
    ((checkDeath r e).stats e = some { s with health := 0 } ∧
      (checkDeath r e).dead e = true ∧
      (checkDeath r e).inCombat e = none ∧
      (checkDeath r e).routing e = false ∧
      (checkDeath r e).pursuing e = none) ∧
    (∀ n : Nat,
      (run sqrt fd dt n rg).1.dead x = true ∧
      (run sqrt fd dt n rg).1.stats x = rg.1.stats x ∧
      (run sqrt fd dt n rg).1.healthD x = rg.1.healthD x ∧
      (run sqrt fd dt n rg).1.inCombat x = rg.1.inCombat x ∧
      (run sqrt fd dt n rg).1.routing x = rg.1.routing x ∧
      (run sqrt fd dt n rg).1.pursuing x = rg.1.pursuing x) := by
  refine ⟨checkDeath_post r e s hstats hle, ?_⟩
  intro n
  have hfz := run_dead_frozen sqrt fd dt rg x hx n
  exact ⟨hfz.2.1.trans hx, hfz.1, healthD_congr hfz.1, hfz.2.2.1, hfz.2.2.2.1,
    hfz.2.2.2.2⟩

/-- A battlefield with a freshly dead soldier: entity 1 is Dead with 0
health, entity 0 is an alive enemy right next to it. -/
def regC6 : Registry ℚ where
  entities := [0, 1]
  pos := fun e => if e = 0 then some ⟨0, 0⟩ else if e = 1 then some ⟨1, 0⟩ else none
  vel := fun _ => some ⟨0, 0⟩
  team := fun e => if e = 0 then some TeamV.Red else if e = 1 then some TeamV.Blue else none
  stats := fun e =>
    if e = 0 then some ⟨100, 100, 100, 100, 10, 0, 5⟩
    else if e = 1 then some ⟨0, 100, 100, 100, 10, 0, 5⟩ else none
  unit := fun _ => some UnitTypeT.HeavyInfantry
  formation := fun _ => none
  member := fun _ => none
  mtarget := fun _ => none
  inCombat := fun _ => none
  routing := fun _ => false
  dead := fun e => e = 1
  pursuing := fun _ => none
  flash := fun _ => none

/-- Witness for claim_C6_death_idempotence at the dead soldier of
regC6. -/
theorem claim_C6_witness :
    ((checkDeath regC6 1).stats 1 =
        some { (⟨0, 100, 100, 100, 10, 0, 5⟩ : Stats ℚ) with health := 0 } ∧
      (checkDeath regC6 1).dead 1 = true ∧
      (checkDeath regC6 1).inCombat 1 = none ∧
      (checkDeath regC6 1).routing 1 = false ∧
      (checkDeath regC6 1).pursuing 1 = none) ∧
    (∀ n : Nat,
      (run (fun _ => (0 : ℚ)) 0 (1/60) n (regC6, ⟨fun _ => 1/2, 0⟩)).1.dead 1 = true ∧
      (run (fun _ => (0 : ℚ)) 0 (1/60) n (regC6, ⟨fun _ => 1/2, 0⟩)).1.stats 1 =
        regC6.stats 1 ∧
      (run (fun _ => (0 : ℚ)) 0 (1/60) n (regC6, ⟨fun _ => 1/2, 0⟩)).1.healthD 1 =
        regC6.healthD 1 ∧
      (run (fun _ => (0 : ℚ)) 0 (1/60) n (regC6, ⟨fun _ => 1/2, 0⟩)).1.inCombat 1 =
        regC6.inCombat 1 ∧
      (run (fun _ => (0 : ℚ)) 0 (1/60) n (regC6, ⟨fun _ => 1/2, 0⟩)).1.routing 1 =
        regC6.routing 1 ∧
      (run (fun _ => (0 : ℚ)) 0 (1/60) n (regC6, ⟨fun _ => 1/2, 0⟩)).1.pursuing 1 =
        regC6.pursuing 1) :=
  claim_C6_death_idempotence (fun _ => (0 : ℚ)) 0 (1/60) regC6 (regC6, ⟨fun _ => 1/2, 0⟩)
    1 1 ⟨0, 100, 100, 100, 10, 0, 5⟩ rfl (by norm_num) (by simp [regC6])

end ClaimC6


end FOB
